import Mathlib

/-!
Verification development for the vision-to-MakeCode pipeline
(`vision_processor.py`): a noise-tolerant recognizer that turns an OCR'd
token sequence into a command model and renders MakeCode JavaScript.

The embedding below is a shallow translation of the parsing and code
generation core.  Python strings become `String`, the token sequence (the
"command" column of the DataFrame) becomes `List String`, and the global
mapping tables loaded from `static/blocks_map.json` (external configuration,
out of scope per the spec) become an explicit `Config` parameter.  The
sub-parsers `parse_actions_from`, `parse_grid_from` and `parse_show_common`
only ever read tokens at positions `base_index + offset` with increasing
offsets, so they are embedded as functions on the token suffix starting at
`base_index + start_offset`; the absolute-index entry points are thin
wrappers that take that suffix.  The top-level scan of `parse_commands`
is embedded as a fold over absolute indices, mirroring `df.iterrows()`.

Python string primitives are re-implemented over `List Char` so that the
embedding is fully transparent to the kernel: `pyStrip` is `str.strip()`,
`upperStr` is `str.upper()` (ASCII; the source only relies on it for ASCII
and already-uppercase Cyrillic look-alikes), `pyStartsWith` is
`str.startswith`, `splitOnChar` is `str.split` on a single character, and
`strJoin` is `sep.join(...)`.
-/

/-- `str.strip()` on the character list: drop whitespace from both ends. -/
def stripChars (cs : List Char) : List Char :=
  ((cs.dropWhile Char.isWhitespace).reverse.dropWhile Char.isWhitespace).reverse

/-- Python `str.strip()`. -/
def pyStrip (s : String) : String := String.mk (stripChars s.toList)

/-- Python `str.upper()` (ASCII letters; other characters unchanged). -/
def upperStr (s : String) : String := String.mk (s.toList.map Char.toUpper)

/-- Python `s[n:]` on strings. -/
def pyDrop (s : String) (n : Nat) : String := String.mk (s.toList.drop n)

/-- Python `s.startswith(p)`. -/
def pyStartsWith (s p : String) : Bool := p.toList.isPrefixOf s.toList

/-- Python `s.split(c)` for a single-character separator (keeps empty parts). -/
def splitOnChar (c : Char) : List Char → List (List Char)
  | [] => [[]]
  | x :: xs =>
    if x = c then [] :: splitOnChar c xs
    else
      match splitOnChar c xs with
      | [] => [[x]]
      | y :: ys => (x :: y) :: ys

/-- Python `sep.join(parts)`. -/
def strJoin (sep : String) : List String → String
  | [] => ""
  | [x] => x
  | x :: xs => x ++ sep ++ strJoin sep xs

/-- A valid digit run for Python `int()`: nonempty, starting and ending
with a decimal digit, with any underscore sitting between two digits
(CPython digit grouping: `int("1_0") = 10`, while `"_1"`, `"1_"` and
`"1__0"` are rejected). -/
def digitsGroupOK : List Char → Bool
  | [] => false
  | [c] => c.isDigit
  | c :: '_' :: rest => c.isDigit && digitsGroupOK rest
  | c :: d :: rest => c.isDigit && digitsGroupOK (d :: rest)

/-- Python `int(s)`: strip, optional sign, decimal digits with underscore
grouping. -/
def pyToInt (s : String) : Option Int :=
  let t := stripChars s.toList
  let digitsVal : List Char → Option Nat := fun ds =>
    if digitsGroupOK ds then
      some ((ds.filter (fun c => c ≠ '_')).foldl
        (fun acc d => acc * 10 + (d.toNat - 48)) 0)
    else none
  match t with
  | '-' :: ds => (digitsVal ds).map (fun n => -(n : Int))
  | '+' :: ds => (digitsVal ds).map (fun n => (n : Int))
  | ds => (digitsVal ds).map (fun n => (n : Int))

/-- Python `str.isdigit()` (ASCII digits). -/
def isDigitStr (s : String) : Bool :=
  !s.toList.isEmpty && s.toList.all Char.isDigit

/-- The external block mapping (`static/blocks_map.json`), as consumed by the
core: uppercased label → value dictionaries and the optional render
templates.  In the source these are module-level globals (`ICONS`, `SOUNDS`,
`PINS`, `SYNONYMS`, `PIN_WRITE_TEMPLATE`, `RADIO_SETGROUP_TEMPLATE`,
`RADIO_SENDSTRING_TEMPLATE`, `TEMPLATES`, `EVENT_TEMPLATES`); here they are
one explicit read-only parameter. `eventTemplates` flattens each event entry
to its `template` string. -/
structure Config where
  icons : List (String × String)
  sounds : List (String × String)
  pins : List (String × String)
  synonyms : List (String × String)
  pinWriteTemplate : Option String
  radioSetGroupTemplate : Option String
  radioSendStringTemplate : Option String
  gridTemplate : Option String
  ifTemplate : Option String
  ifElseTemplate : Option String
  eventTemplates : List (String × String)
  deriving DecidableEq

/-- `render_template`: replace each `{{key}}` placeholder with its value,
in dictionary order (the params dictionaries in the source are small and
have distinct keys). -/
def render_template (templateStr : String) (params : List (String × String)) : String :=
  params.foldl
    (fun acc kv => acc.replace ("\x7b\x7b" ++ kv.1 ++ "\x7d\x7d") kv.2) templateStr

/-- `get_icon_code`: resolve an icon pseudoname via the mapping, defaulting
to `IconNames.Heart`. -/
def get_icon_code (cfg : Config) (iconName : String) : String :=
  match cfg.icons.lookup (upperStr (pyStrip iconName)) with
  | some v => v
  | none => "IconNames.Heart"

/-- `get_sound_code`: resolve a sound pseudoname via the mapping, defaulting
to `soundExpression.happy`. -/
def get_sound_code (cfg : Config) (soundName : String) : String :=
  match cfg.sounds.lookup (upperStr (pyStrip soundName)) with
  | some v => v
  | none => "soundExpression.happy"

/-- The Cyrillic-to-Latin look-alike transform used by `normalize_pin_token`:
Cyrillic capital Er (U+0420) → `P`, Cyrillic capital O (U+041E) → `O`. -/
def cyrToLat (c : Char) : Char :=
  if c = 'Р' then 'P' else if c = 'О' then 'O' else c

/-- `normalize_pin_token`: strip + uppercase, apply the synonym table, map
Cyrillic look-alikes to Latin, and special-case the two-character result
`PO` → `P0`. -/
def normalize_pin_token (cfg : Config) (token : String) : String :=
  let tokenStripped := upperStr (pyStrip token)
  let tokenStripped2 :=
    match cfg.synonyms.lookup tokenStripped with
    | some v => upperStr v
    | none => tokenStripped
  let normalized := String.mk (tokenStripped2.toList.map cyrToLat)
  if normalized = "PO" then "P0" else normalized

/-- `GRID_NOISE_TOKENS`. -/
def GRID_NOISE_TOKENS : List String := ["+", "*", "·", "•", ","]

/-- Characters before the first `]` of a character list, or `none` when no
`]` occurs. -/
def takeUntilRB : List Char → Option (List Char)
  | [] => none
  | c :: rest =>
    if c = ']' then some []
    else (takeUntilRB rest).map (fun pre => c :: pre)

/-- The first match of the regex `\[([^\]]+)\]` in a character list: the
leftmost `[` that is followed by at least one non-`]` character and then a
`]`; returns the bracketed inner characters. -/
def bracketInner : List Char → Option (List Char)
  | [] => none
  | c :: rest =>
    if c = '[' then
      match takeUntilRB rest with
      | some pre => if pre ≠ [] then some pre else bracketInner rest
      | none => bracketInner rest
    else bracketInner rest

/-- The bracketed-pin lookahead shared by the `TURN ON` / `TURN OFF`
branches: scan the tokens after the command (up to `bound` of them, the
source uses `range(1, min(6, remaining))` so `bound = 5`), find the first
token containing a `[...]` match, and return the normalized inner text
together with its 1-based distance `j`. -/
def findBracketPin (cfg : Config) : List String → Nat → Nat → Option (String × Nat)
  | [], _, _ => none
  | tok :: more, bound, j =>
    if bound = 0 then none
    else
      match bracketInner tok.toList with
      | some inner => some (normalize_pin_token cfg (String.mk inner), j)
      | none => findBracketPin cfg more (bound - 1) (j + 1)

/-- `_normalize_grid_char`: map a (stripped, single-character) OCR glyph to
`#` (lit) or `.` (unlit); `none` for anything longer or unknown. -/
def _normalize_grid_char (ch : String) : Option Char :=
  if ch.toList.length = 0 then none
  else
    let c := pyStrip ch
    if c.toList.length > 1 then none
    else if c = "#" ∨ c = "1" ∨ c = "I" ∨ c = "|" then some '#'
    else if c = "." ∨ c = "0" ∨ c = "O" ∨ c = "o" ∨ c = "," ∨ c = "-" ∨ c = "·" ∨ c = "•"
      then some '.'
    else none

/-- The glyph substitutions of `_normalize_grid_row`:
`O`/`o`/`0`/`-` → `.` and `I`/`|`/`1` → `#`. -/
def gridRowGlyph (c : Char) : Char :=
  if c = 'O' ∨ c = 'o' ∨ c = '0' ∨ c = '-' then '.'
  else if c = 'I' ∨ c = '|' ∨ c = '1' then '#'
  else c

/-- `_normalize_grid_row`: strip, remove spacing/noise characters, apply the
glyph substitutions, and accept exactly 5 characters all in `{#,.}`.
(The source's re-check loop allowing `I`/`|` is unreachable because those
glyphs were already substituted, and its final re-mapping pass is the
identity on `{#,.}`.) -/
def _normalize_grid_row (rowStr : String) : Option String :=
  let s0 := stripChars rowStr.toList
  let s1 := s0.filter (fun c => ¬(c = ' ' ∨ c = '·' ∨ c = '•' ∨ c = ','))
  let s2 := s1.map gridRowGlyph
  if s2.length = 5 ∧ s2.all (fun c => c = '#' ∨ c = '.') then some (String.mk s2)
  else none

/-- The row-merge retry of the row strategy: greedily append up to 3
following tokens to a candidate row and re-normalize after each append;
returns the normalized row and the number of lookahead tokens used. -/
def tryMergeRow : String → List String → Nat → Option (String × Nat)
  | merged, nxt :: more, lookaheadUsed =>
    if lookaheadUsed < 3 then
      let merged2 := merged ++ nxt
      match _normalize_grid_row merged2 with
      | some t => some (t, lookaheadUsed)
      | none => tryMergeRow merged2 more (lookaheadUsed + 1)
    else none
  | _, [], _ => none

/-- The row strategy loop of `parse_grid_from`: exactly 5 iterations of
`for r in range(5)` (the source's `r -= 1` on a noise token has no effect
on a Python `range` loop, so a skipped noise token still spends one of the
5 iterations).  Returns the parsed rows and tokens consumed; stops early at
end of input or an unnormalizable row. -/
def gridRowLoop : Nat → List String → List String × Nat
  | 0, _ => ([], 0)
  | _ + 1, [] => ([], 0)
  | iters + 1, candidate :: rest =>
    if pyStrip candidate ∈ GRID_NOISE_TOKENS then
      let (rows, c) := gridRowLoop iters rest
      (rows, c + 1)
    else
      match _normalize_grid_row candidate with
      | some norm =>
        let (rows, c) := gridRowLoop iters rest
        (norm :: rows, c + 1)
      | none =>
        match tryMergeRow candidate rest 0 with
        | some (norm, lookaheadUsed) =>
          let (rows, c) := gridRowLoop iters (rest.drop (lookaheadUsed + 1))
          (norm :: rows, c + (lookaheadUsed + 2))
        | none => ([], 0)

/-- The glyph-by-glyph expansion of a multi-character token in the flat
strategy: append each normalizable glyph, stopping at 25 cells; on an
unnormalizable glyph the already-appended cells are kept but the loop
reports failure (`expanded_any = False`), exactly as in the source. -/
def expandGlyphs (glyphs : List Char) : List Char → List Char × Bool
  | [] => (glyphs, false)
  | c :: rest =>
    match _normalize_grid_char (String.mk [c]) with
    | none => (glyphs, false)
    | some g =>
      let glyphs2 := glyphs ++ [g]
      if glyphs2.length ≥ 25 then (glyphs2, true)
      else
        match rest with
        | [] => (glyphs2, true)
        | _ :: _ => expandGlyphs glyphs2 rest

/-- The flat-glyph fallback loop of `parse_grid_from`: collect single-glyph
cells (skipping noise tokens, expanding multi-character tokens) until 25
cells are collected or the input is exhausted. -/
def gridFlatLoop : List String → List Char → List Char × Nat
  | [], glyphs => (glyphs, 0)
  | tok :: rest, glyphs =>
    if glyphs.length ≥ 25 then (glyphs, 0)
    else if pyStrip tok ∈ GRID_NOISE_TOKENS then
      let (g, c) := gridFlatLoop rest glyphs
      (g, c + 1)
    else
      match _normalize_grid_char tok with
      | some n =>
        let (g, c) := gridFlatLoop rest (glyphs ++ [n])
        (g, c + 1)
      | none =>
        let (glyphs2, expandedAny) := expandGlyphs glyphs tok.toList
        if expandedAny then
          let (g, c) := gridFlatLoop rest glyphs2
          (g, c + 1)
        else (glyphs2, 0)

/-- `parse_grid_from` on the token suffix starting at
`base_index + start_offset`: try the row strategy (5 rows), then the
flat-glyph strategy (25 cells, padded with `.` and partitioned into 5 rows
of 5); `(none, 0)` when neither applies. -/
def gridRel (l : List String) : Option String × Nat :=
  let (rows, consumed) := gridRowLoop 5 l
  if rows.length = 5 then (some (strJoin "\n" rows), consumed)
  else
    let (glyphs, consumed2) := gridFlatLoop l []
    if glyphs.isEmpty then (none, 0)
    else
      let padded := glyphs ++ List.replicate (25 - glyphs.length) '.'
      let rows2 : List String :=
        [ String.mk (padded.take 5),
          String.mk ((padded.drop 5).take 5),
          String.mk ((padded.drop 10).take 5),
          String.mk ((padded.drop 15).take 5),
          String.mk ((padded.drop 20).take 5) ]
      (some (strJoin "\n" rows2), consumed2)

/-- `parse_grid_from(df, base_index, start_offset)`. -/
def parse_grid_from (tokens : List String) (baseIndex startOffset : Nat) :
    Option String × Nat :=
  gridRel (tokens.drop (baseIndex + startOffset))

/-- Result of `parse_show_common`: a grid (with tokens consumed after the
`SHOW` token), an icon code (always consuming 1 token), or failure. -/
inductive ShowParse where
  | grid (value : String) (consumedAfterShow : Nat)
  | icon (value : String)
  | failed
  deriving DecidableEq

/-- `parse_show_common` on the token suffix starting just after `SHOW`: try
the grid first (the source tests the grid string's truthiness, hence the
non-empty check); otherwise treat the next token as an icon name. -/
def showRel (cfg : Config) (l : List String) : ShowParse :=
  let iconBranch : ShowParse :=
    match l with
    | [] => .failed
    | name :: _ => if name ≠ "" then .icon (get_icon_code cfg name) else .failed
  match gridRel l with
  | (some g, c) => if g ≠ "" then .grid g c else iconBranch
  | (none, _) => iconBranch

/-- `parse_show_common(df, base_index, show_offset)`. -/
def parse_show_common (cfg : Config) (tokens : List String) (baseIndex showOffset : Nat) :
    ShowParse :=
  showRel cfg (tokens.drop (baseIndex + showOffset))

/-- The grid-action rendering shared verbatim by `parse_actions_from` and
`generate_code` (both build `spaced_rows`, apply the `grid` template when
present and otherwise fall back to `basic.showLeds`). -/
def renderGridAction (cfg : Config) (gridStr : String) : String :=
  let rows := (splitOnChar '\n' gridStr.toList).map String.mk
  let spacedRows := rows.map
    (fun r => "    " ++ strJoin " " (r.toList.map (fun ch => String.mk [ch])))
  let gridRender := strJoin "\n" spacedRows
  match cfg.gridTemplate with
  | some t => render_template t [("grid", gridRender)]
  | none => "basic.showLeds(" ++ ("`\n" ++ gridRender ++ "\n`") ++ ");"

/-- The pin-write rendering shared verbatim by `parse_actions_from` and
`generate_code`: the `templateDigitalWrite` template when present, otherwise
the hardcoded `pins.digitalWritePin` form. -/
def renderPinWrite (cfg : Config) (pin : String) (value : Nat) : String :=
  match cfg.pinWriteTemplate with
  | some t => render_template t [("pin", pin), ("value", toString value)]
  | none => "pins.digitalWritePin(DigitalPin." ++ pin ++ ", " ++ toString value ++ ")"

/-- One loop iteration of `parse_actions_from` on a non-stopper token `cmd`
followed by `rest`: the optional rendered action string and the number of
tokens consumed by this iteration (always at least 1).  Each `else` arm is
where the corresponding source branch falls through to `i += 1`. -/
def paStep (cfg : Config) (cmd : String) (rest : List String) : Option String × Nat :=
  if cmd = "SHOW" ∧ rest ≠ [] then
    match showRel cfg rest with
    | .grid g c => (some (renderGridAction cfg g), 1 + c)
    | .icon v => (some ("basic.showIcon(" ++ v ++ ")"), 2)
    | .failed => (none, 1)
  else if cmd = "TURN ON" then
    match findBracketPin cfg rest 5 1 with
    | some (pin, j) =>
      if pin ≠ "" ∧ (cfg.pins.lookup pin).isSome then (some (renderPinWrite cfg pin 1), 1 + j)
      else (none, 1)
    | none => (none, 1)
  else if cmd = "TURN OFF" then
    match findBracketPin cfg rest 5 1 with
    | some (pin, j) =>
      if pin ≠ "" ∧ (cfg.pins.lookup pin).isSome then (some (renderPinWrite cfg pin 0), 1 + j)
      else (none, 1)
    | none => (none, 1)
  else if cmd = "SEND A MESSAGE" ∧ rest ≠ [] then
    let msg := rest.headD ""
    if msg ≠ "" then (some ("radio.sendString(\"" ++ msg ++ "\")"), 2)
    else (none, 1)
  else if cmd = "PLAY SOUND" ∧ rest ≠ [] then
    (some ("music.play(music.builtinPlayableSoundEffect(" ++ get_sound_code cfg (rest.headD "")
        ++ "), music.PlaybackMode.UntilDone)"), 2)
  else (none, 1)

/-- The loop of `parse_actions_from`, with an explicit fuel argument so the
recursion is structural: stop on a stopper token or end of stream, otherwise
take one `paStep` and continue past the tokens it consumed.  The loop always
consumes at least one token per iteration, so fuel equal to the suffix
length (as supplied by `paRel`) never runs out before the input does. -/
def paGo (cfg : Config) : Nat → List String → List String × Nat
  | 0, _ => ([], 0)
  | _ + 1, [] => ([], 0)
  | fuel + 1, cmd :: rest =>
    if cmd = "ELSE" ∨ cmd = "ON" ∨ cmd = "IF" then ([], 0)
    else
      let s := paStep cfg cmd rest
      let r := paGo cfg fuel (rest.drop (s.2 - 1))
      ((match s.1 with | some a => a :: r.1 | none => r.1), s.2 + r.2)

/-- `parse_actions_from` on the token suffix starting at
`base_index + start_offset`: parse actions until a stopper token
(`ELSE`/`ON`/`IF`) or end of stream, returning the rendered action strings
and the number of tokens consumed. -/
def paRel (cfg : Config) (l : List String) : List String × Nat :=
  paGo cfg l.length l

/-- `parse_actions_from(df, base_index, start_offset)`: returns
`(actions, consumed_relative_offset)`. -/
def parse_actions_from (cfg : Config) (tokens : List String) (baseIndex startOffset : Nat) :
    List String × Nat :=
  paRel cfg (tokens.drop (baseIndex + startOffset))

/-- Top-level action nodes of the command model (`parsed_commands['actions']`),
a tagged variant mirroring the `'type'` field of the dictionaries the source
appends. -/
inductive TopAction where
  | send_message (message : String)
  | show_grid (grid : String)
  | show_icon (icon : String)
  | turn_on_pin (pin : String)
  | turn_off_pin (pin : String)
  deriving DecidableEq

/-- Trigger kinds of event handler nodes (`handler['type']`, with
`handler['button']` folded into the `button` variant). -/
inductive TriggerType where
  | shake
  | sound_loud
  | sound_quiet
  | radio_receives_message
  | button (b : String)
  | tilt_up
  | tilt_down
  | tilt_left
  | tilt_right
  | logo_up
  | logo_down
  deriving DecidableEq

/-- An event handler node: trigger plus the rendered body actions produced
by `parse_actions_from`. -/
structure Handler where
  trigger : TriggerType
  actions : List String
  deriving DecidableEq

/-- The conditional node (`parsed_commands['conditional']`). -/
structure Conditional where
  condition_js : String
  then_actions : List String
  else_actions : List String
  deriving DecidableEq

/-- The command model plus the consumed-index set built by `parse_commands`
(the source's `parsed_commands` dictionary and `consumed_indices` set; the
set is kept as a duplicate-free list in insertion order). -/
structure ParseState where
  channel : Option String
  actions : List TopAction
  eventHandlers : List Handler
  conditional : Option Conditional
  consumed : List Nat
  deriving DecidableEq

/-- The initial `parsed_commands` dictionary (no conditional key) and empty
consumed set. -/
def initState : ParseState :=
  { channel := none, actions := [], eventHandlers := [], conditional := none,
    consumed := [] }

/-- Python `set.add`. -/
def insertIdx (s : List Nat) (k : Nat) : List Nat :=
  if k ∈ s then s else s ++ [k]

/-- Add `range(a, b)` to the consumed set (empty when `b ≤ a`). -/
def markConsumed (s : List Nat) (a b : Nat) : List Nat :=
  (List.range' a (b - a)).foldl insertIdx s

/-- The `token(pos)` helper of `parse_commands`: the token at an absolute
position, or `none` out of range. -/
def tokenAt (tokens : List String) (pos : Nat) : Option String :=
  if pos < tokens.length then some (tokens.getD pos "") else none

/-- The `handle_event` helper: parse the body via `parse_actions_from`; when
non-empty, append the handler and mark `range(base_index + start_offset,
base_index + consumed_rel)` consumed (exactly the range the source marks). -/
def handleEvent (cfg : Config) (tokens : List String) (st : ParseState)
    (baseIndex startOffset : Nat) (trig : TriggerType) : ParseState :=
  let r := parse_actions_from cfg tokens baseIndex startOffset
  if r.1 ≠ [] then
    { st with
      eventHandlers := st.eventHandlers ++ [{ trigger := trig, actions := r.1 }],
      consumed := markConsumed st.consumed (baseIndex + startOffset) (baseIndex + r.2) }
  else st

/-- `parse_single_condition(start_idx)`: one condition, returning its
JavaScript and the number of tokens consumed (`(none, 0)` on failure).
For the combined `PRESS BUTTON X` token the source takes the last
whitespace-separated word as the button, which for the three guarded
values is `A`/`B`/`AB`. -/
def parse_single_condition (cfg : Config) (tokens : List String) (startIdx : Nat) :
    Option String × Nat :=
  let tok0 := tokenAt tokens startIdx
  let tok1 := tokenAt tokens (startIdx + 1)
  let tok2 := tokenAt tokens (startIdx + 2)
  if tok0 = some "PRESS BUTTON" ∧ (tok1 = some "A" ∨ tok1 = some "B" ∨ tok1 = some "AB") then
    (some ("input.buttonIsPressed(Button." ++ tok1.getD "" ++ ")"), 2)
  else if tok0 = some "PRESS BUTTON A" then
    (some "input.buttonIsPressed(Button.A)", 1)
  else if tok0 = some "PRESS BUTTON B" then
    (some "input.buttonIsPressed(Button.B)", 1)
  else if tok0 = some "PRESS BUTTON AB" then
    (some "input.buttonIsPressed(Button.AB)", 1)
  else
    let leftNorm := tok0.map (normalize_pin_token cfg)
    let rightNorm := tok2.map (normalize_pin_token cfg)
    let op? : Option String :=
      if tok1 = some "EQUAL TO" then some "=="
      else if tok1 = some "SMALLER THAN" then some "<"
      else if tok1 = some "GREATER THAN" then some ">"
      else none
    let optIsDigit : Option String → Bool := fun o => (o.map isDigitStr).getD false
    match op? with
    | none => (none, 0)
    | some op =>
      if optIsDigit tok0
          ∧ (rightNorm = some "P0" ∨ rightNorm = some "P1" ∨ rightNorm = some "P2") then
        (some (tok0.getD "" ++ " " ++ op ++ " pins.digitalReadPin(DigitalPin."
            ++ rightNorm.getD "" ++ ")"), 3)
      else if (leftNorm = some "P0" ∨ leftNorm = some "P1" ∨ leftNorm = some "P2")
          ∧ optIsDigit tok2 then
        (some ("pins.digitalReadPin(DigitalPin." ++ leftNorm.getD "" ++ ") " ++ op
            ++ " " ++ tok2.getD ""), 3)
      else (none, 0)

/-- The condition-and-`THEN` phase of the `IF` branch of `parse_commands`:
first condition, optional trailing `NOT`, optional `AND`/`OR` plus second
condition with its optional trailing `NOT`, then the `THEN` check.  Returns
the combined condition JavaScript and the absolute position of the `THEN`
token; `none` exactly when the source `continue`s (first condition
unrecognizable, second condition unrecognizable after a connector, or
`THEN` absent at the expected position). -/
def parseIfHeader (cfg : Config) (tokens : List String) (index : Nat) :
    Option (String × Nat) :=
  let pos0 := index + 1
  match parse_single_condition cfg tokens pos0 with
  | (none, _) => none
  | (some cond1, c1) =>
    let pos1 := pos0 + c1
    let s1 : String × Nat :=
      if tokenAt tokens pos1 = some "NOT" then ("!(" ++ cond1 ++ ")", pos1 + 1)
      else (cond1, pos1)
    let cond1b := s1.1
    let pos2 := s1.2
    let connector := tokenAt tokens pos2
    if connector = some "AND" ∨ connector = some "OR" then
      match parse_single_condition cfg tokens (pos2 + 1) with
      | (none, _) => none
      | (some cond2, c2) =>
        let pos3 := pos2 + 1 + c2
        let s2 : String × Nat :=
          if tokenAt tokens pos3 = some "NOT" then ("!(" ++ cond2 ++ ")", pos3 + 1)
          else (cond2, pos3)
        let cond2b := s2.1
        let pos4 := s2.2
        let opStr := if connector = some "AND" then "&&" else "||"
        if tokenAt tokens pos4 = some "THEN" then
          some (cond1b ++ " " ++ opStr ++ " " ++ cond2b, pos4)
        else none
    else
      if tokenAt tokens pos2 = some "THEN" then some (cond1b, pos2) else none

/-- The body phase of the `IF` branch: parse the `THEN` actions, mark them
consumed, then the optional `ELSE` (with optional `THEN`) branch, and store
the conditional node (overwriting any previous one). -/
def stepIfBody (cfg : Config) (tokens : List String) (st : ParseState)
    (index : Nat) (conditionJs : String) (thenPos : Nat) : ParseState :=
  let startAfterThen := (thenPos - index) + 1
  let rThen := parse_actions_from cfg tokens index startAfterThen
  let thenActions := rThen.1
  let consumed := rThen.2
  let consumed1 := markConsumed st.consumed (index + startAfterThen)
      (index + startAfterThen + consumed)
  let elsePos := index + startAfterThen + consumed
  if elsePos < tokens.length ∧ tokenAt tokens elsePos = some "ELSE" then
    let consumed2 := insertIdx consumed1 elsePos
    let hasThen := tokenAt tokens (elsePos + 1) = some "THEN"
    let startAfterElse := startAfterThen + consumed + (if hasThen then 2 else 1)
    let consumed3 := if hasThen then insertIdx consumed2 (elsePos + 1) else consumed2
    let rElse := parse_actions_from cfg tokens index startAfterElse
    let consumed4 := markConsumed consumed3 (index + startAfterElse)
        (index + startAfterElse + rElse.2)
    { st with
      conditional := some { condition_js := conditionJs, then_actions := thenActions,
                            else_actions := rElse.1 },
      consumed := consumed4 }
  else
    { st with
      conditional := some { condition_js := conditionJs, then_actions := thenActions,
                            else_actions := [] },
      consumed := consumed1 }

/-- The message-content search of the `SEND A` / `MESSAGE` branch: the first
of the next 3 positions (offsets 2..4) that is in range and not one of the
keyword tokens. -/
def findMessageContent (tokens : List String) (index : Nat) : Option String :=
  let keywords : List String := ["ON", "SHOW", "TURN", "PLAY", "IF", "GET", "SEND"]
  let check : Nat → Option String := fun i =>
    if index + i < tokens.length then
      let c := tokens.getD (index + i) ""
      if c ∉ keywords then some c else none
    else none
  (check 2).orElse (fun _ => (check 3).orElse (fun _ => check 4))

/-- The split-token `ON ...` trigger cascade of `parse_commands`, in source
order (the second pair of split `HEAR ... SOUND` checks is unreachable but
kept for fidelity). -/
def stepOn (cfg : Config) (tokens : List String) (st : ParseState) (index : Nat) :
    ParseState :=
  let t1 := tokenAt tokens (index + 1)
  let t2 := tokenAt tokens (index + 2)
  let t3 := tokenAt tokens (index + 3)
  let t4 := tokenAt tokens (index + 4)
  if t1 = some "SHAKE" then handleEvent cfg tokens st index 2 .shake
  else if t1 = some "HEAR" ∧ t2 = some "LOUD" ∧ t3 = some "SOUND" then
    handleEvent cfg tokens st index 4 .sound_loud
  else if t1 = some "HEAR" ∧ t2 = some "QUIET" ∧ t3 = some "SOUND" then
    handleEvent cfg tokens st index 4 .sound_quiet
  else if t1 = some "RADIO" ∧ t2 = some "RECEIVES" then
    handleEvent cfg tokens st index 3 .radio_receives_message
  else if t1 = some "RADIO RECEIVES" then
    handleEvent cfg tokens st index 2 .radio_receives_message
  else if t1 = some "HEAR LOUD SOUND" then
    handleEvent cfg tokens st index 2 .sound_loud
  else if t1 = some "HEAR QUIET SOUND" then
    handleEvent cfg tokens st index 2 .sound_quiet
  else if t1 = some "HEAR" ∧ t2 = some "LOUD" ∧ t3 = some "SOUND" then
    handleEvent cfg tokens st index 4 .sound_loud
  else if t1 = some "HEAR" ∧ t2 = some "QUIET" ∧ t3 = some "SOUND" then
    handleEvent cfg tokens st index 4 .sound_quiet
  else if (t1 = some "PRESS" ∧ t2 = some "BUTTON" ∧ (t3 = some "A" ∨ t3 = some "B"))
      ∨ (t1 = some "PRESS BUTTON" ∧ (t2 = some "A" ∨ t2 = some "B")) then
    let btn := if t1 = some "PRESS" then t3.getD "" else t2.getD ""
    let start := if t1 = some "PRESS" then 4 else 3
    handleEvent cfg tokens st index start (.button btn)
  else if (t1 = some "PRESS" ∧ t2 = some "BUTTON" ∧ t3 = some "A" ∧ t4 = some "B")
      ∨ (t1 = some "PRESS BUTTON" ∧ t2 = some "A" ∧ t3 = some "B") then
    handleEvent cfg tokens st index (if t1 = some "PRESS" then 5 else 4) (.button "AB")
  else if t1 = some "TILT" ∧ t2 = some "UP" then handleEvent cfg tokens st index 3 .tilt_up
  else if t1 = some "TILT" ∧ t2 = some "DOWN" then handleEvent cfg tokens st index 3 .tilt_down
  else if t1 = some "TILT" ∧ t2 = some "LEFT" then handleEvent cfg tokens st index 3 .tilt_left
  else if t1 = some "TILT" ∧ t2 = some "RIGHT" then handleEvent cfg tokens st index 3 .tilt_right
  else if t1 = some "LOGO" ∧ t2 = some "UP" then handleEvent cfg tokens st index 3 .logo_up
  else if t1 = some "LOGO" ∧ t2 = some "DOWN" then handleEvent cfg tokens st index 3 .logo_down
  else st

/-- One iteration of the top-level scan of `parse_commands` at `index`:
skip consumed indices, then dispatch on the token through the source's
`if`/`elif` chain (`CHANNEL`, split `SEND A`+`MESSAGE`, `SHOW`,
`TURN ON`/`TURN OFF`, merged `ON <phrase>` tokens, split `ON` triggers,
`IF`). -/
def stepCommand (cfg : Config) (tokens : List String) (st : ParseState) (index : Nat) :
    ParseState :=
  let value := tokens.getD index ""
  if index ∈ st.consumed then st
  else if value = "CHANNEL" then
    if index > 0 then { st with channel := some (tokens.getD (index - 1) "") } else st
  else if value = "SEND A" ∧ index + 1 < tokens.length
      ∧ tokens.getD (index + 1) "" = "MESSAGE" then
    match findMessageContent tokens index with
    | some m =>
      if m ≠ "" then { st with actions := st.actions ++ [.send_message m] } else st
    | none => st
  else if value = "SHOW" then
    match parse_show_common cfg tokens index 1 with
    | .grid g _ => { st with actions := st.actions ++ [.show_grid g] }
    | .icon v => { st with actions := st.actions ++ [.show_icon v] }
    | .failed => st
  else if value = "TURN ON" then
    match findBracketPin cfg (tokens.drop (index + 1)) 5 1 with
    | some (pin, _) =>
      if pin ≠ "" ∧ (cfg.pins.lookup pin).isSome then
        { st with actions := st.actions ++ [.turn_on_pin pin] }
      else st
    | none => st
  else if value = "TURN OFF" then
    match findBracketPin cfg (tokens.drop (index + 1)) 5 1 with
    | some (pin, _) =>
      if pin ≠ "" ∧ (cfg.pins.lookup pin).isSome then
        { st with actions := st.actions ++ [.turn_off_pin pin] }
      else st
    | none => st
  else if pyStartsWith value "ON " then
    let eventPart := pyDrop value 3
    if eventPart = "TILT LEFT" then handleEvent cfg tokens st index 1 .tilt_left
    else if eventPart = "TILT RIGHT" then handleEvent cfg tokens st index 1 .tilt_right
    else if eventPart = "TILT UP" then handleEvent cfg tokens st index 1 .tilt_up
    else if eventPart = "TILT DOWN" then handleEvent cfg tokens st index 1 .tilt_down
    else if eventPart = "SHAKE" then handleEvent cfg tokens st index 1 .shake
    else if eventPart = "RADIO RECEIVES" then
      handleEvent cfg tokens st index 1 .radio_receives_message
    else if eventPart = "HEAR LOUD SOUND" then handleEvent cfg tokens st index 1 .sound_loud
    else if eventPart = "HEAR QUIET SOUND" then handleEvent cfg tokens st index 1 .sound_quiet
    else st
  else if value = "ON" then stepOn cfg tokens st index
  else if value = "IF" then
    match parseIfHeader cfg tokens index with
    | none => st
    | some (condJs, thenPos) => stepIfBody cfg tokens st index condJs thenPos
  else st

/-- The `for index, row in df.iterrows()` loop: apply `stepCommand` to
`count` successive indices starting at `idx`. -/
def scanFrom (cfg : Config) (tokens : List String) : ParseState → Nat → Nat → ParseState
  | st, _, 0 => st
  | st, idx, n + 1 => scanFrom cfg tokens (stepCommand cfg tokens st idx) (idx + 1) n

/-- `parse_commands` on an already-split token sequence: scan every index
from 0. -/
def parseCommandsTokens (cfg : Config) (tokens : List String) : ParseState :=
  scanFrom cfg tokens initState 0 tokens.length

/-- `parse_commands(string_data)`: split the OCR text on newlines and scan. -/
def parse_commands (cfg : Config) (stringData : String) : ParseState :=
  parseCommandsTokens cfg ((splitOnChar '\n' stringData.toList).map String.mk)

/-- `get_event_template`: look up the mapper template for a handler type
(`ON SHAKE`, `HEAR LOUD SOUND`, `HEAR QUIET SOUND`, `ON BUTTON A/B/AB`,
`GET A MESSAGE`); tilt and logo handlers have no template lookup. -/
def get_event_template (cfg : Config) (h : Handler) : Option String :=
  match h.trigger with
  | .shake => cfg.eventTemplates.lookup "ON SHAKE"
  | .sound_loud => cfg.eventTemplates.lookup "HEAR LOUD SOUND"
  | .sound_quiet => cfg.eventTemplates.lookup "HEAR QUIET SOUND"
  | .button b =>
    if b = "A" ∨ b = "B" ∨ b = "AB" then cfg.eventTemplates.lookup ("ON BUTTON " ++ b)
    else none
  | .radio_receives_message => cfg.eventTemplates.lookup "GET A MESSAGE"
  | _ => none

/-- Indent every non-empty line by four spaces (the
`("    " + line) if line else ""` comprehension of `generate_code`). -/
def indentLines (s : String) : String :=
  strJoin "\n" ((splitOnChar '\n' s.toList).map
    (fun l => if l ≠ [] then "    " ++ String.mk l else ""))

/-- The per-action rendering of the top-level `actions` loop of
`generate_code`.  Note that `show_icon` resolves the stored icon value
through `get_icon_code` a second time. -/
def generateAction (cfg : Config) : TopAction → String
  | .send_message m =>
    match cfg.radioSendStringTemplate with
    | some t => render_template t [("message", m)]
    | none => "radio.sendString(\"" ++ m ++ "\");"
  | .show_grid g => renderGridAction cfg g
  | .show_icon ic => "basic.showIcon(" ++ get_icon_code cfg ic ++ ")"
  | .turn_on_pin p => renderPinWrite cfg p 1
  | .turn_off_pin p => renderPinWrite cfg p 0

/-- The per-handler rendering of `generate_code`: mapper template when
available, otherwise the hardcoded fallback per trigger type; `none` when
the fallback chain appends nothing (a `button` handler with an unknown
button id). -/
def generateHandler (cfg : Config) (h : Handler) : Option String :=
  let actionsPlain := strJoin "\n" h.actions
  match get_event_template cfg h with
  | some t =>
    let indented := if actionsPlain ≠ "" then indentLines actionsPlain else ""
    some (render_template t [("actions", indented)])
  | none =>
    let indented := indentLines actionsPlain
    match h.trigger with
    | .shake => some ("input.onGesture(Gesture.Shake, function () \x7b\n" ++ indented ++ "\n\x7d)")
    | .button b =>
      if b = "A" then some ("input.onButtonPressed(Button.A, function () \x7b\n" ++ indented ++ "\n\x7d)")
      else if b = "B" then some ("input.onButtonPressed(Button.B, function () \x7b\n" ++ indented ++ "\n\x7d)")
      else if b = "AB" then some ("input.onButtonPressed(Button.AB, function () \x7b\n" ++ indented ++ "\n\x7d)")
      else none
    | .sound_loud => some ("input.onSound(DetectedSound.Loud, function () \x7b\n" ++ indented ++ "\n\x7d)")
    | .sound_quiet => some ("input.onSound(DetectedSound.Quiet, function () \x7b\n" ++ indented ++ "\n\x7d)")
    | .radio_receives_message => some ("radio.onReceivedString(function (receivedString) \x7b\n" ++ indented ++ "\n\x7d)")
    | .tilt_up => some ("input.onScreenUp(function () \x7b\n" ++ indented ++ "\n\x7d)")
    | .tilt_down => some ("input.onScreenDown(function () \x7b\n" ++ indented ++ "\n\x7d)")
    | .tilt_left => some ("input.onGesture(Gesture.TiltLeft, function () \x7b\n" ++ indented ++ "\n\x7d)")
    | .tilt_right => some ("input.onGesture(Gesture.TiltRight, function () \x7b\n" ++ indented ++ "\n\x7d)")
    | .logo_up => some ("input.onLogoUp(function () \x7b\n" ++ indented ++ "\n\x7d)")
    | .logo_down => some ("input.onLogoDown(function () \x7b\n" ++ indented ++ "\n\x7d)")

/-- `generate_code`: channel setup (when the channel token parses as an
integer), top-level actions, the conditional block (if/if-else template or
hardcoded fallback), then event handlers; all joined by blank lines. -/
def generate_code (cfg : Config) (pc : ParseState) : String :=
  let channelParts : List String :=
    match pc.channel with
    | some ch =>
      if ch ≠ "" then
        match pyToInt ch with
        | some n =>
          [match cfg.radioSetGroupTemplate with
           | some t => render_template t [("group", toString n)]
           | none => "radio.setGroup(" ++ toString n ++ ");"]
        | none => []
      else []
    | none => []
  let actionParts := pc.actions.map (generateAction cfg)
  let condParts : List String :=
    match pc.conditional with
    | none => []
    | some c =>
      let thenCode := strJoin "\n    " c.then_actions
      let elseCode := strJoin "\n    " c.else_actions
      if elseCode ≠ "" then
        [match cfg.ifElseTemplate with
         | some t => render_template t
             [("condition", c.condition_js), ("then", thenCode), ("else", elseCode)]
         | none => "if (" ++ c.condition_js ++ ") \x7b\n    " ++ thenCode
             ++ "\n\x7d else \x7b\n    " ++ elseCode ++ "\n\x7d"]
      else
        [match cfg.ifTemplate with
         | some t => render_template t [("condition", c.condition_js), ("then", thenCode)]
         | none => "if (" ++ c.condition_js ++ ") \x7b\n    " ++ thenCode ++ "\n\x7d"]
  let handlerParts := pc.eventHandlers.filterMap (generateHandler cfg)
  strJoin "\n\n" (channelParts ++ actionParts ++ condParts ++ handlerParts)

/-- A concrete instance of the external mapping, with the canonical pins and
two icons, used by the concrete evaluations below (no templates, so all
hardcoded fallback forms apply). -/
def cfg1 : Config :=
  { icons := [("HAPPY", "IconNames.Happy"), ("SAD", "IconNames.Sad")],
    sounds := [],
    pins := [("P0", "P0"), ("P1", "P1"), ("P2", "P2")],
    synonyms := [],
    pinWriteTemplate := none,
    radioSetGroupTemplate := none,
    radioSendStringTemplate := none,
    gridTemplate := none,
    ifTemplate := none,
    ifElseTemplate := none,
    eventTemplates := [] }

/-- A clean grid row: exactly five characters, each `#` or `.`. -/
def CleanRow (s : String) : Prop :=
  s.toList.length = 5 ∧ ∀ c ∈ s.toList, c = '#' ∨ c = '.'

/-- A well-shaped grid string: the newline-join of exactly five clean
rows (the spec's "exactly 5 lines of exactly 5 characters from `{#,.}`"). -/
def GoodGrid (g : String) : Prop :=
  ∃ rows : List String, rows.length = 5 ∧ (∀ r ∈ rows, CleanRow r)
    ∧ g = strJoin "\n" rows

/-- The trigger phrases whose merged single-token `ON <phrase>` form is
recognized by the top-level scan, with their trigger types. -/
def mergedTriggerPhrases : List (String × TriggerType) :=
  [("SHAKE", .shake), ("TILT LEFT", .tilt_left), ("TILT RIGHT", .tilt_right),
   ("TILT UP", .tilt_up), ("TILT DOWN", .tilt_down),
   ("RADIO RECEIVES", .radio_receives_message),
   ("HEAR LOUD SOUND", .sound_loud), ("HEAR QUIET SOUND", .sound_quiet)]

/-- Well-formed action blocks shared by the top-level scan and the action
sequence parser: a `SHOW` followed by five clean grid rows, or a
`TURN ON` / `TURN OFF` followed by one token carrying a bracketed,
normalizable, known pin. -/
inductive GoodBlock (cfg : Config) : List String → TopAction → Prop
  | showGrid (r1 r2 r3 r4 r5 : String)
      (h1 : CleanRow r1) (h2 : CleanRow r2) (h3 : CleanRow r3)
      (h4 : CleanRow r4) (h5 : CleanRow r5) :
      GoodBlock cfg ["SHOW", r1, r2, r3, r4, r5]
        (.show_grid (strJoin "\n" [r1, r2, r3, r4, r5]))
  | turnOn (t : String) (inner : List Char)
      (hb : bracketInner t.toList = some inner)
      (hne : normalize_pin_token cfg (String.mk inner) ≠ "")
      (hpin : (cfg.pins.lookup (normalize_pin_token cfg (String.mk inner))).isSome) :
      GoodBlock cfg ["TURN ON", t]
        (.turn_on_pin (normalize_pin_token cfg (String.mk inner)))
  | turnOff (t : String) (inner : List Char)
      (hb : bracketInner t.toList = some inner)
      (hne : normalize_pin_token cfg (String.mk inner) ≠ "")
      (hpin : (cfg.pins.lookup (normalize_pin_token cfg (String.mk inner))).isSome) :
      GoodBlock cfg ["TURN OFF", t]
        (.turn_off_pin (normalize_pin_token cfg (String.mk inner)))

/-! ## Theorems -/

/-- Claim C1 (code bug exhibit): on the spec's own scenario
`["ON", "SHAKE", "SHOW", "HAPPY"]`, `parse_commands` yields the shake
handler with body `[show_icon(happy)]`, but the consumed set stays empty
(`mark_consumed` marks `range(base+start_offset, base+consumed_rel)`, an
empty range here, instead of the handler's span), so the top-level scan
re-dispatches the body tokens and emits a second `show_icon` node from
tokens already absorbed into the handler body. -/
theorem claim_C1_consumed_set_bug :
    parseCommandsTokens cfg1 ["ON", "SHAKE", "SHOW", "HAPPY"] =
      { channel := none,
        actions := [.show_icon "IconNames.Happy"],
        eventHandlers :=
          [{ trigger := .shake, actions := ["basic.showIcon(IconNames.Happy)"] }],
        conditional := none,
        consumed := [] } := by
  decide

/-- Claim C2 (counterexample): `parse_actions_from` does consume a literal
stopper token when it sits in an argument position — `SEND A MESSAGE`
swallows a following `ELSE` as its message text (consumed count 2 covers
index 1, which holds `"ELSE"`), and the `TURN ON` bracketed-pin lookahead
consumes through a bracket token past an intervening `ELSE` (count 3). -/
theorem claim_C2_counterexample :
    parse_actions_from cfg1 ["SEND A MESSAGE", "ELSE"] 0 0
        = (["radio.sendString(\"ELSE\")"], 2)
    ∧ (parse_actions_from cfg1 ["TURN ON", "ELSE", "X[P0]"] 0 0).2 = 3 := by
  constructor
  · rfl
  · rfl

/-- Claim C2 (amended): when the token at the parser's current position
(`base_index + start_offset`) is a literal `ELSE`, `ON` or `IF`,
`parse_actions_from` stops immediately, returning no actions and a consumed
count of zero — it never consumes a stopper it dispatches on; stoppers can
only be consumed from argument positions of the recognized action forms. -/
theorem claim_C2_amended (cfg : Config) (tokens : List String)
    (baseIndex startOffset : Nat)
    (h1 : baseIndex + startOffset < tokens.length)
    (h2 : tokens.getD (baseIndex + startOffset) "" = "ELSE"
        ∨ tokens.getD (baseIndex + startOffset) "" = "ON"
        ∨ tokens.getD (baseIndex + startOffset) "" = "IF") :
    parse_actions_from cfg tokens baseIndex startOffset = ([], 0) := by
  unfold parse_actions_from paRel
  rw [List.drop_eq_getElem_cons h1]
  rw [List.getD_eq_getElem tokens "" h1] at h2
  rcases h2 with h | h | h <;> simp [paGo, h]

/-- Witness for `claim_C2_amended` at a concrete stopper. -/
theorem claim_C2_amended_witness :
    (["ELSE", "SHOW"] : List String).getD 0 "" = "ELSE"
    ∧ parse_actions_from cfg1 ["ELSE", "SHOW"] 0 0 = ([], 0) :=
  ⟨rfl, claim_C2_amended cfg1 ["ELSE", "SHOW"] 0 0 (by decide) (Or.inl rfl)⟩

/-- Claim C3: when the `IF` header fails — the first condition is not
recognizable, the second condition after an `AND`/`OR` connector is not
recognizable, or `THEN` is absent at the expected position (exactly the
cases in which `parseIfHeader` returns `none`, mirroring the source's three
`continue` statements) — the scan step at that `IF` returns the state
unchanged: no conditional node is stored, no action or handler is added,
and no token is added to the consumed set, so all tokens of that `IF`
remain eligible for top-level reinterpretation. -/
theorem claim_C3_malformed_if_writes_nothing (cfg : Config) (tokens : List String)
    (st : ParseState) (index : Nat)
    (hv : tokens.getD index "" = "IF")
    (hc : index ∉ st.consumed)
    (hh : parseIfHeader cfg tokens index = none) :
    stepCommand cfg tokens st index = st := by
  unfold stepCommand
  rw [hv, hh]
  have hps : pyStartsWith "IF" "ON " = false := rfl
  simp [hc, hps]

/-- Witness for `claim_C3_malformed_if_writes_nothing` on the spec's
malformed-conditional scenario (missing `THEN`). -/
theorem claim_C3_witness :
    parseIfHeader cfg1 ["IF", "PRESS BUTTON", "A", "SHOW", "SAD"] 0 = none
    ∧ stepCommand cfg1 ["IF", "PRESS BUTTON", "A", "SHOW", "SAD"] initState 0 = initState :=
  ⟨by decide,
   claim_C3_malformed_if_writes_nothing cfg1 ["IF", "PRESS BUTTON", "A", "SHOW", "SAD"]
     initState 0 rfl (by decide) (by decide)⟩

/-- `dropWhile` is the identity when no element satisfies the predicate. -/
theorem dropWhile_eq_self_of_none (p : Char → Bool) (cs : List Char)
    (h : ∀ c ∈ cs, p c = false) : cs.dropWhile p = cs := by
  cases cs with
  | nil => rfl
  | cons a l => rw [List.dropWhile_cons, h a (by simp)]; simp

/-- Stripping is the identity on character lists without whitespace. -/
theorem stripChars_eq_self (cs : List Char)
    (h : ∀ c ∈ cs, c.isWhitespace = false) : stripChars cs = cs := by
  unfold stripChars
  rw [dropWhile_eq_self_of_none _ _ h,
      dropWhile_eq_self_of_none _ _ (fun c hc => h c (List.mem_reverse.mp hc)),
      List.reverse_reverse]

/-- `pyStrip` is the identity on strings without whitespace characters. -/
theorem pyStrip_eq_self (t : String)
    (h : ∀ c ∈ t.toList, c.isWhitespace = false) : pyStrip t = t := by
  unfold pyStrip
  rw [stripChars_eq_self _ h]
  rfl

/-- `normalize_pin_token` with no applicable synonym entry: it reduces to
the Cyrillic-to-Latin transform of the stripped uppercase token, with the
`PO` special case. -/
theorem normalize_pin_token_of_lookup_none (cfg : Config) (t : String)
    (h : cfg.synonyms.lookup (upperStr (pyStrip t)) = none) :
    normalize_pin_token cfg t =
      (if String.mk ((upperStr (pyStrip t)).toList.map cyrToLat) = "PO" then "P0"
       else String.mk ((upperStr (pyStrip t)).toList.map cyrToLat)) := by
  simp only [normalize_pin_token, h]

/-- Claim C8 (counterexample): `normalize_pin_token` does not return every
unknown token merely uppercased and otherwise unmodified — a token
containing a Cyrillic look-alike character that does not resolve to a
canonical pin, such as `\u0420X` (Cyrillic capital Er followed by Latin
`X`), comes back with the look-alike replaced (`PX`), which differs from
its uppercased form. -/
theorem claim_C8_counterexample :
    normalize_pin_token cfg1 "\u0420X" = "PX"
    ∧ upperStr "\u0420X" = "\u0420X"
    ∧ normalize_pin_token cfg1 "\u0420X" ≠ upperStr "\u0420X" := by
  refine ⟨rfl, rfl, ?_⟩
  decide

/-- Claim C8 (amended): `normalize_pin_token` is the identity on the
canonical pins `P0`, `P1`, `P2` (provided the synonym table has no entry
for them); it maps the noisy variants `PO` and Cyrillic `\u0420\u041e` to
`P0`; and it never fails outright: an unknown token is returned stripped,
synonym-resolved, with Cyrillic look-alikes `\u0420`/`\u041e` replaced by
`P`/`O`, and uppercased — in particular a token with no surrounding
whitespace, no synonym entry and no Cyrillic look-alike characters passes
through merely uppercased (when that uppercase form is not itself `PO`). -/
theorem claim_C8_amended (cfg : Config)
    (h0 : cfg.synonyms.lookup "P0" = none)
    (h1 : cfg.synonyms.lookup "P1" = none)
    (h2 : cfg.synonyms.lookup "P2" = none)
    (hpo : cfg.synonyms.lookup "PO" = none)
    (hro : cfg.synonyms.lookup "\u0420\u041e" = none) :
    (normalize_pin_token cfg "P0" = "P0" ∧ normalize_pin_token cfg "P1" = "P1"
      ∧ normalize_pin_token cfg "P2" = "P2")
    ∧ (normalize_pin_token cfg "PO" = "P0"
      ∧ normalize_pin_token cfg "\u0420\u041e" = "P0")
    ∧ ∀ t : String,
        cfg.synonyms.lookup (upperStr t) = none →
        (∀ c ∈ t.toList,
          c.isWhitespace = false ∧ c.toUpper ≠ '\u0420' ∧ c.toUpper ≠ '\u041e') →
        upperStr t ≠ "PO" →
        normalize_pin_token cfg t = upperStr t := by
  refine ⟨⟨?_, ?_, ?_⟩, ⟨?_, ?_⟩, ?_⟩
  · rw [normalize_pin_token_of_lookup_none cfg "P0" h0]; decide
  · rw [normalize_pin_token_of_lookup_none cfg "P1" h1]; decide
  · rw [normalize_pin_token_of_lookup_none cfg "P2" h2]; decide
  · rw [normalize_pin_token_of_lookup_none cfg "PO" hpo]; decide
  · rw [normalize_pin_token_of_lookup_none cfg "\u0420\u041e" hro]; decide
  · intro t hsyn hchars hne
    have hstrip : pyStrip t = t :=
      pyStrip_eq_self t (fun c hc => (hchars c hc).1)
    have hsyn2 : cfg.synonyms.lookup (upperStr (pyStrip t)) = none := by
      rw [hstrip]; exact hsyn
    have hmap : (upperStr t).toList.map cyrToLat = (upperStr t).toList := by
      show (t.toList.map Char.toUpper).map cyrToLat = t.toList.map Char.toUpper
      rw [List.map_map]
      refine List.map_congr_left ?_
      intro a ha
      show cyrToLat a.toUpper = a.toUpper
      unfold cyrToLat
      rw [if_neg (hchars a ha).2.1, if_neg (hchars a ha).2.2]
    rw [normalize_pin_token_of_lookup_none cfg t hsyn2, hstrip, hmap]
    show (if upperStr t = "PO" then "P0" else upperStr t) = upperStr t
    rw [if_neg hne]

/-- Witness for `claim_C8_amended` at the concrete mapping `cfg1` and the
unknown token `abc`. -/
theorem claim_C8_amended_witness :
    normalize_pin_token cfg1 "P0" = "P0" ∧ normalize_pin_token cfg1 "PO" = "P0"
    ∧ normalize_pin_token cfg1 "abc" = upperStr "abc" :=
  ⟨(claim_C8_amended cfg1 rfl rfl rfl rfl rfl).1.1,
   (claim_C8_amended cfg1 rfl rfl rfl rfl rfl).2.1.1,
   (claim_C8_amended cfg1 rfl rfl rfl rfl rfl).2.2 "abc" rfl (by decide) (by decide)⟩

/-- Parsing a body that starts at or past the end of the input yields no
actions and consumes nothing. -/
theorem parse_actions_from_out_of_range (cfg : Config) (tokens : List String)
    (baseIndex startOffset : Nat) (h : tokens.length ≤ baseIndex + startOffset) :
    parse_actions_from cfg tokens baseIndex startOffset = ([], 0) := by
  unfold parse_actions_from paRel
  rw [List.drop_eq_nil_of_le h]
  rfl

/-- `handle_event` with a body that starts at or past the end of the input
leaves the state unchanged (empty action list, handler dropped). -/
theorem handleEvent_out_of_range (cfg : Config) (tokens : List String)
    (st : ParseState) (baseIndex startOffset : Nat) (trig : TriggerType)
    (h : tokens.length ≤ baseIndex + startOffset) :
    handleEvent cfg tokens st baseIndex startOffset trig = st := by
  unfold handleEvent
  rw [parse_actions_from_out_of_range cfg tokens baseIndex startOffset h]
  simp

/-- `parse_single_condition` starting at or past the end of the input
fails. -/
theorem parse_single_condition_out_of_range (cfg : Config) (tokens : List String)
    (startIdx : Nat) (h : tokens.length ≤ startIdx) :
    parse_single_condition cfg tokens startIdx = (none, 0) := by
  have h0 : tokenAt tokens startIdx = none := by
    unfold tokenAt; rw [if_neg (by omega)]
  have h1 : tokenAt tokens (startIdx + 1) = none := by
    unfold tokenAt; rw [if_neg (by omega)]
  have h2 : tokenAt tokens (startIdx + 2) = none := by
    unfold tokenAt; rw [if_neg (by omega)]
  unfold parse_single_condition
  rw [h0, h1, h2]
  simp

/-- Scanning the last token of the input: every branch that would open a
body or look ahead finds nothing, so the step is the identity except for
the `CHANNEL` branch, which may record the previous token as the channel. -/
theorem stepCommand_last (cfg : Config) (tokens : List String) (st : ParseState)
    (index : Nat) (hlen : tokens.length = index + 1) (hc : index ∉ st.consumed) :
    stepCommand cfg tokens st index = st
    ∨ (tokens.getD index "" = "CHANNEL" ∧ 0 < index ∧
       stepCommand cfg tokens st index
         = { st with channel := some (tokens.getD (index - 1) "") }) := by
  have hdrop : tokens.drop (index + 1) = [] := List.drop_eq_nil_of_le (by omega)
  have hhe : ∀ (st2 : ParseState) k trig, 1 ≤ k →
      handleEvent cfg tokens st2 index k trig = st2 :=
    fun st2 k trig hk => handleEvent_out_of_range cfg tokens st2 index k trig (by omega)
  have hon : stepOn cfg tokens st index = st := by
    have htok : ∀ k, 1 ≤ k → tokenAt tokens (index + k) = none := by
      intro k hk; unfold tokenAt; rw [if_neg (by omega)]
    unfold stepOn
    rw [htok 1 (by omega), htok 2 (by omega), htok 3 (by omega), htok 4 (by omega)]
    simp
  have hif : parseIfHeader cfg tokens index = none := by
    simp only [parseIfHeader,
      parse_single_condition_out_of_range cfg tokens (index + 1) (by omega)]
  have hsc : parse_show_common cfg tokens index 1 = ShowParse.failed := by
    unfold parse_show_common
    rw [hdrop]
    rfl
  have hfb : findBracketPin cfg (tokens.drop (index + 1)) 5 1 = none := by
    rw [hdrop]; rfl
  unfold stepCommand
  rw [if_neg hc]
  by_cases hch : tokens.getD index "" = "CHANNEL"
  · rw [if_pos hch]
    by_cases hidx : 0 < index
    · right
      exact ⟨hch, hidx, by rw [if_pos hidx]⟩
    · left
      rw [if_neg hidx]
  · rw [if_neg hch]
    left
    by_cases h2 : tokens.getD index "" = "SEND A" ∧ index + 1 < tokens.length
        ∧ tokens.getD (index + 1) "" = "MESSAGE"
    · exact absurd h2.2.1 (by omega)
    · rw [if_neg h2]
      by_cases h3 : tokens.getD index "" = "SHOW"
      · rw [if_pos h3, hsc]
      · rw [if_neg h3]
        by_cases h4 : tokens.getD index "" = "TURN ON"
        · rw [if_pos h4, hfb]
        · rw [if_neg h4]
          by_cases h5 : tokens.getD index "" = "TURN OFF"
          · rw [if_pos h5, hfb]
          · rw [if_neg h5]
            by_cases h6 : pyStartsWith (tokens.getD index "") "ON " = true
            · rw [if_pos h6]
              dsimp only
              split_ifs <;> first | rfl | exact hhe st 1 _ (by omega)
            · rw [if_neg h6]
              by_cases h7 : tokens.getD index "" = "ON"
              · rw [if_pos h7, hon]
              · rw [if_neg h7]
                by_cases h8 : tokens.getD index "" = "IF"
                · rw [if_pos h8, hif]
                · rw [if_neg h8]

/-- Claim C10: for a top-level `SHOW <name>` (here: `SHOW` followed by a
non-grid, non-empty icon-name token at the end of the input), the parser
stores the already-resolved code `get_icon_code(name)` in the `show_icon`
action, and `generate_code` applies `get_icon_code` a second time to that
stored code — so whenever the resolved code is not itself a key of the icon
mapping, the rendered top-level line is `basic.showIcon(IconNames.Heart)`
regardless of the original icon name, whereas `parse_actions_from` renders
the same `SHOW <name>` inside a body with the code resolved only once. -/
theorem claim_C10_double_icon_resolution (cfg : Config) (name : String)
    (hname : name ≠ "")
    (hgrid : (gridRel [name]).1 = none)
    (hkey : cfg.icons.lookup (upperStr (pyStrip (get_icon_code cfg name))) = none) :
    (parseCommandsTokens cfg ["SHOW", name]).actions
        = [TopAction.show_icon (get_icon_code cfg name)]
    ∧ generate_code cfg (parseCommandsTokens cfg ["SHOW", name])
        = "basic.showIcon(IconNames.Heart)"
    ∧ (parse_actions_from cfg ["SHOW", name] 0 0).1
        = ["basic.showIcon(" ++ get_icon_code cfg name ++ ")"] := by
  have hshow : showRel cfg [name] = ShowParse.icon (get_icon_code cfg name) := by
    unfold showRel
    dsimp only
    rcases hgr : gridRel [name] with ⟨og, c⟩
    rw [hgr] at hgrid
    cases og with
    | some g => exact absurd hgrid (by simp)
    | none => simp [hname]
  have hanylookup : ∀ s : String, cfg.icons.lookup (upperStr (pyStrip s)) = none →
      get_icon_code cfg s = "IconNames.Heart" := by
    intro s hs
    unfold get_icon_code
    rw [hs]
  have hgic : get_icon_code cfg (get_icon_code cfg name) = "IconNames.Heart" :=
    hanylookup (get_icon_code cfg name) hkey
  have h0 : stepCommand cfg ["SHOW", name] initState 0
      = { initState with actions := [TopAction.show_icon (get_icon_code cfg name)] } := by
    simp [stepCommand, initState,
      show parse_show_common cfg ["SHOW", name] 0 1
          = ShowParse.icon (get_icon_code cfg name) from hshow]
  have hpc : parseCommandsTokens cfg ["SHOW", name]
      = stepCommand cfg ["SHOW", name]
          (stepCommand cfg ["SHOW", name] initState 0) 1 := rfl
  have hbody : (parse_actions_from cfg ["SHOW", name] 0 0).1
      = ["basic.showIcon(" ++ get_icon_code cfg name ++ ")"] := by
    simp [parse_actions_from, paRel, paGo, paStep, hshow]
  rcases stepCommand_last cfg ["SHOW", name]
      { initState with actions := [TopAction.show_icon (get_icon_code cfg name)] }
      1 rfl (by simp [initState]) with h1 | ⟨hch, _, h1⟩ <;>
    rw [hpc, h0, h1] <;>
    refine ⟨rfl, ?_, hbody⟩ <;>
    · simp [generate_code, generateAction, initState, strJoin, hgic, pyToInt, stripChars]

/-- Witness for `claim_C10_double_icon_resolution` at `cfg1` and the icon
name `HAPPY` (resolved code `IconNames.Happy`, which is not an icon key). -/
theorem claim_C10_witness :
    (parseCommandsTokens cfg1 ["SHOW", "HAPPY"]).actions
        = [TopAction.show_icon (get_icon_code cfg1 "HAPPY")]
    ∧ generate_code cfg1 (parseCommandsTokens cfg1 ["SHOW", "HAPPY"])
        = "basic.showIcon(IconNames.Heart)"
    ∧ (parse_actions_from cfg1 ["SHOW", "HAPPY"] 0 0).1
        = ["basic.showIcon(" ++ get_icon_code cfg1 "HAPPY" ++ ")"] :=
  claim_C10_double_icon_resolution cfg1 "HAPPY" (by decide) (by decide) (by decide)

/-- Clean rows pass `_normalize_grid_row` unchanged: no whitespace to strip,
no noise characters to remove, and the glyph substitutions fix `#`/`.`. -/
theorem _normalize_grid_row_of_clean (r : String) (h : CleanRow r) :
    _normalize_grid_row r = some r := by
  obtain ⟨hlen, hmem⟩ := h
  have hstrip : stripChars r.toList = r.toList :=
    stripChars_eq_self _ (fun c hc => by rcases hmem c hc with h2 | h2 <;> rw [h2] <;> decide)
  have hfilter : r.toList.filter (fun c => ¬(c = ' ' ∨ c = '·' ∨ c = '•' ∨ c = ','))
      = r.toList := by
    refine List.filter_eq_self.mpr ?_
    intro a ha
    rcases hmem a ha with h2 | h2 <;> rw [h2] <;> decide
  have hmap : r.toList.map gridRowGlyph = r.toList := by
    have hcg : ∀ c ∈ r.toList, gridRowGlyph c = id c := by
      intro c hc
      rcases hmem c hc with h2 | h2 <;> rw [h2] <;> decide
    rw [List.map_congr_left hcg, List.map_id]
  have hall : r.toList.all (fun c => decide (c = '#' ∨ c = '.')) = true := by
    refine List.all_eq_true.mpr ?_
    intro c hc
    rcases hmem c hc with h2 | h2 <;> rw [h2] <;> decide
  unfold _normalize_grid_row
  dsimp only
  rw [hstrip, hfilter, hmap, if_pos ⟨hlen, hall⟩]
  rfl

/-- A clean row is never a standalone grid noise token (wrong length). -/
theorem cleanRow_not_noise (r : String) (h : CleanRow r) :
    pyStrip r ∉ GRID_NOISE_TOKENS := by
  have hs : pyStrip r = r :=
    pyStrip_eq_self r (fun c hc => by rcases h.2 c hc with h2 | h2 <;> rw [h2] <;> decide)
  rw [hs]
  intro hmem
  simp only [GRID_NOISE_TOKENS] at hmem
  fin_cases hmem <;> exact absurd h (by unfold CleanRow; decide)

/-- The row strategy on clean rows: each of the first `rs.length` iterations
reads exactly one row, so the loop returns the rows themselves and consumes
one token per row, regardless of what follows. -/
theorem gridRowLoop_clean (rs rest : List String) (h : ∀ r ∈ rs, CleanRow r) :
    gridRowLoop rs.length (rs ++ rest) = (rs, rs.length) := by
  induction rs with
  | nil => rfl
  | cons r rs ih =>
    have hr := h r (by simp)
    simp only [List.length_cons, List.cons_append, gridRowLoop,
      if_neg (cleanRow_not_noise r hr), _normalize_grid_row_of_clean r hr,
      List.append_eq, ih (fun x hx => h x (List.mem_cons_of_mem _ hx))]

/-- Claim C6 (grid round-trip): presenting the five rows of a 5×5 grid over
`{#,.}` as five consecutive tokens (with anything at all following them),
`parse_grid_from` succeeds via the row strategy and returns exactly the
newline-join of the original rows, consuming exactly five tokens. -/
theorem claim_C6_grid_round_trip (rows rest : List String)
    (hlen : rows.length = 5) (hclean : ∀ r ∈ rows, CleanRow r) :
    parse_grid_from (rows ++ rest) 0 0 = (some (strJoin "\n" rows), 5) := by
  have h5 : gridRowLoop 5 (rows ++ rest) = (rows, 5) := by
    rw [← hlen]
    exact gridRowLoop_clean rows rest hclean
  unfold parse_grid_from gridRel
  rw [show List.drop (0 + 0) (rows ++ rest) = rows ++ rest from rfl, h5]
  simp [hlen]

/-- Witness for `claim_C6_grid_round_trip` on a concrete diagonal grid. -/
theorem claim_C6_witness :
    parse_grid_from (["#....", ".#...", "..#..", "...#.", "....#"] ++ []) 0 0
      = (some (strJoin "\n" ["#....", ".#...", "..#..", "...#.", "....#"]), 5) :=
  claim_C6_grid_round_trip ["#....", ".#...", "..#..", "...#.", "....#"] []
    (by decide) (by intro r hr; fin_cases hr <;> unfold CleanRow <;> decide)

/-- Whatever `_normalize_grid_row` accepts is a clean 5-character row. -/
theorem _normalize_grid_row_shape (s : String) (t : String)
    (h : _normalize_grid_row s = some t) : CleanRow t := by
  unfold _normalize_grid_row at h
  dsimp only at h
  split at h
  · next hcond =>
    injection h with h2
    subst h2
    exact ⟨hcond.1,
      fun c hc => of_decide_eq_true (List.all_eq_true.mp hcond.2 c hc)⟩
  · exact absurd h (by simp)

/-- Whatever the row-merge retry accepts is a clean 5-character row. -/
theorem tryMergeRow_shape : ∀ (l : List String) (m : String) (k : Nat)
    (t : String) (j : Nat), tryMergeRow m l k = some (t, j) → CleanRow t := by
  intro l
  induction l with
  | nil => intro m k t j h; exact absurd h (by simp [tryMergeRow])
  | cons nxt more ih =>
    intro m k t j h
    unfold tryMergeRow at h
    split at h
    · dsimp only at h
      split at h
      · next u hu =>
        injection h with h2
        rw [show t = u from congrArg Prod.fst h2.symm]
        exact _normalize_grid_row_shape _ u hu
      · exact ih _ _ _ _ h
    · exact absurd h (by simp)

/-- Every row produced by the row strategy is a clean 5-character row. -/
theorem gridRowLoop_shape : ∀ (iters : Nat) (l : List String) (r : String),
    r ∈ (gridRowLoop iters l).1 → CleanRow r := by
  intro iters
  induction iters with
  | zero => intro l r h; exact absurd h (by simp [gridRowLoop])
  | succ n ih =>
    intro l r h
    match l with
    | [] => exact absurd h (by simp [gridRowLoop])
    | candidate :: rest =>
      unfold gridRowLoop at h
      split at h
      · exact ih rest r (by simpa using h)
      · split at h
        · next norm hnorm =>
          simp only at h
          rcases List.mem_cons.mp h with h2 | h2
          · subst h2; exact _normalize_grid_row_shape candidate r hnorm
          · exact ih rest r h2
        · split at h
          · rename_i norm2 look2 hmerge2
            simp only at h
            rcases List.mem_cons.mp h with h2 | h2
            · subst h2; exact tryMergeRow_shape rest candidate 0 _ look2 hmerge2
            · exact ih _ r h2
          · exact absurd h (by simp)

/-- `_normalize_grid_char` only ever produces `#` or `.`. -/
theorem _normalize_grid_char_shape (s : String) (c : Char)
    (h : _normalize_grid_char s = some c) : c = '#' ∨ c = '.' := by
  unfold _normalize_grid_char at h
  split at h
  · exact absurd h (by simp)
  · dsimp only at h
    split at h
    · exact absurd h (by simp)
    · split at h
      · injection h with h2; exact Or.inl h2.symm
      · split at h
        · injection h with h2; exact Or.inr h2.symm
        · exact absurd h (by simp)

/-- Glyph expansion preserves the cell-character invariant. -/
theorem expandGlyphs_shape : ∀ (chs : List Char) (glyphs : List Char),
    (∀ x ∈ glyphs, x = '#' ∨ x = '.') →
    ∀ x ∈ (expandGlyphs glyphs chs).1, x = '#' ∨ x = '.' := by
  intro chs
  induction chs with
  | nil => intro glyphs hg x hx; exact hg x (by simpa [expandGlyphs] using hx)
  | cons c rest ih =>
    intro glyphs hg x hx
    unfold expandGlyphs at hx
    split at hx
    · exact hg x hx
    · next g hgc =>
      have hg2 : ∀ y ∈ glyphs ++ [g], y = '#' ∨ y = '.' := by
        intro y hy
        rcases List.mem_append.mp hy with h2 | h2
        · exact hg y h2
        · rw [List.mem_singleton.mp h2]
          exact _normalize_grid_char_shape _ g hgc
      dsimp only at hx
      split at hx
      · exact hg2 x hx
      · split at hx
        · exact hg2 x hx
        · exact ih _ hg2 x hx

/-- Glyph expansion never grows past 25 cells when entered below 25. -/
theorem expandGlyphs_le : ∀ (chs : List Char) (glyphs : List Char),
    glyphs.length < 25 → (expandGlyphs glyphs chs).1.length ≤ 25 := by
  intro chs
  induction chs with
  | nil => intro glyphs hg; simpa [expandGlyphs] using Nat.le_of_lt hg
  | cons c rest ih =>
    intro glyphs hg
    unfold expandGlyphs
    cases hnc : _normalize_grid_char (String.mk [c]) with
    | none => exact Nat.le_of_lt hg
    | some g =>
      dsimp only
      by_cases h25 : (glyphs ++ [g]).length ≥ 25
      · rw [if_pos h25]
        simp only [List.length_append, List.length_singleton] at hg ⊢
        omega
      · rw [if_neg h25]
        cases rest with
        | nil =>
          simp only [List.length_append, List.length_singleton] at h25 ⊢
          omega
        | cons r2 rest2 =>
          refine ih (glyphs ++ [g]) ?_
          simp only [List.length_append, List.length_singleton] at h25 ⊢
          omega

/-- The flat strategy preserves the cell-character invariant. -/
theorem gridFlatLoop_shape : ∀ (l : List String) (glyphs : List Char),
    (∀ x ∈ glyphs, x = '#' ∨ x = '.') →
    ∀ x ∈ (gridFlatLoop l glyphs).1, x = '#' ∨ x = '.' := by
  intro l
  induction l with
  | nil => intro glyphs hg x hx; exact hg x (by simpa [gridFlatLoop] using hx)
  | cons tok rest ih =>
    intro glyphs hg x hx
    unfold gridFlatLoop at hx
    split at hx
    · exact hg x hx
    · split at hx
      · exact ih glyphs hg x (by simpa using hx)
      · split at hx
        · next n hn =>
          refine ih (glyphs ++ [n]) ?_ x (by simpa using hx)
          intro y hy
          rcases List.mem_append.mp hy with h2 | h2
          · exact hg y h2
          · rw [List.mem_singleton.mp h2]
            exact _normalize_grid_char_shape _ n hn
        · dsimp only at hx
          split at hx
          · exact ih _ (expandGlyphs_shape tok.toList glyphs hg) x (by simpa using hx)
          · exact expandGlyphs_shape tok.toList glyphs hg x hx

/-- The flat strategy never collects more than 25 cells. -/
theorem gridFlatLoop_le : ∀ (l : List String) (glyphs : List Char),
    glyphs.length ≤ 25 → (gridFlatLoop l glyphs).1.length ≤ 25 := by
  intro l
  induction l with
  | nil => intro glyphs hg; simpa [gridFlatLoop] using hg
  | cons tok rest ih =>
    intro glyphs hg
    unfold gridFlatLoop
    split
    · exact hg
    · next hlt =>
      split
      · simpa using ih glyphs hg
      · split
        · simpa using ih _ (by simp only [List.length_append, List.length_singleton]; omega)
        · dsimp only
          split
          · simpa using ih _ (expandGlyphs_le tok.toList glyphs (by omega))
          · exact expandGlyphs_le tok.toList glyphs (by omega)

/-- Claim C7: whenever `parse_grid_from` returns a grid — by either the row
strategy or the flat-glyph fallback — the grid string is the newline-join
of exactly 5 rows of exactly 5 characters, each `#` or `.` (in the
fallback, any shortfall below 25 collected cells having been padded with
unlit `.` cells before partitioning into 5 rows of 5). -/
theorem claim_C7_grid_shape (tokens : List String) (baseIndex startOffset : Nat)
    (g : String) (c : Nat)
    (h : parse_grid_from tokens baseIndex startOffset = (some g, c)) :
    GoodGrid g := by
  unfold parse_grid_from at h
  generalize tokens.drop (baseIndex + startOffset) = l at h
  unfold gridRel at h
  rcases hrl : gridRowLoop 5 l with ⟨rows, consumed⟩
  rw [hrl] at h
  dsimp only at h
  by_cases h5 : rows.length = 5
  · rw [if_pos h5] at h
    have h1 : some (strJoin "\n" rows) = some g := congrArg Prod.fst h
    injection h1 with h1
    exact ⟨rows, h5, fun r hr => gridRowLoop_shape 5 l r (by rw [hrl]; exact hr),
      h1.symm⟩
  · rw [if_neg h5] at h
    rcases hfl : gridFlatLoop l [] with ⟨glyphs, c2⟩
    rw [hfl] at h
    dsimp only at h
    by_cases hemp : glyphs.isEmpty
    · rw [if_pos hemp] at h
      exact absurd (congrArg Prod.fst h) (by simp)
    · rw [if_neg hemp] at h
      have hle : glyphs.length ≤ 25 := by
        have h2 := gridFlatLoop_le l [] (by simp)
        rw [hfl] at h2
        exact h2
      have hplen : (glyphs ++ List.replicate (25 - glyphs.length) '.').length = 25 := by
        simp only [List.length_append, List.length_replicate]
        omega
      have hchars : ∀ x ∈ glyphs ++ List.replicate (25 - glyphs.length) '.',
          x = '#' ∨ x = '.' := by
        intro x hx
        rcases List.mem_append.mp hx with h2 | h2
        · exact gridFlatLoop_shape l [] (by simp) x (by rw [hfl]; exact h2)
        · exact Or.inr (List.eq_of_mem_replicate h2)
      have hchunk : ∀ k, k + 5 ≤ 25 →
          CleanRow (String.mk (((glyphs ++ List.replicate (25 - glyphs.length) '.').drop k).take 5)) := by
        intro k hk
        constructor
        · show (((glyphs ++ _).drop k).take 5).length = 5
          simp only [List.length_take, List.length_drop, hplen]
          omega
        · intro x hx
          exact hchars x (List.mem_of_mem_drop (List.mem_of_mem_take hx))
      have h1 : some (strJoin "\n"
          [String.mk (((glyphs ++ List.replicate (25 - glyphs.length) '.')).take 5),
           String.mk ((((glyphs ++ List.replicate (25 - glyphs.length) '.')).drop 5).take 5),
           String.mk ((((glyphs ++ List.replicate (25 - glyphs.length) '.')).drop 10).take 5),
           String.mk ((((glyphs ++ List.replicate (25 - glyphs.length) '.')).drop 15).take 5),
           String.mk ((((glyphs ++ List.replicate (25 - glyphs.length) '.')).drop 20).take 5)])
          = some g := congrArg Prod.fst h
      injection h1 with h1
      refine ⟨_, ?_, ?_, h1.symm⟩
      · simp
      · intro r hr
        simp only [List.mem_cons, List.not_mem_nil, or_false] at hr
        rcases hr with h2 | h2 | h2 | h2 | h2 <;> subst h2
        · have := hchunk 0 (by omega)
          simpa using this
        · exact hchunk 5 (by omega)
        · exact hchunk 10 (by omega)
        · exact hchunk 15 (by omega)
        · exact hchunk 20 (by omega)

/-- Witness for `claim_C7_grid_shape` through the flat-glyph fallback: nine
single glyphs followed by end of input, padded to 25 cells. -/
theorem claim_C7_witness :
    GoodGrid "#.#.#\n.....\n.....\n.....\n....." :=
  claim_C7_grid_shape ["#", ".", "#", ".", "#"] 0 0
    "#.#.#\n.....\n.....\n.....\n....." 5 (by decide)

/-- Peeling the last step off the scan loop. -/
theorem scanFrom_succ (cfg : Config) (tokens : List String) :
    ∀ (n : Nat) (st : ParseState) (idx : Nat),
    scanFrom cfg tokens st idx (n + 1)
      = stepCommand cfg tokens (scanFrom cfg tokens st idx n) (idx + n) := by
  intro n
  induction n with
  | zero => intro st idx; simp [scanFrom]
  | succ n ih =>
    intro st idx
    show scanFrom cfg tokens (stepCommand cfg tokens st idx) (idx + 1) (n + 1)
        = stepCommand cfg tokens
            (scanFrom cfg tokens (stepCommand cfg tokens st idx) (idx + 1) n)
            (idx + (n + 1))
    rw [ih]
    congr 1
    omega

/-- Claim C9: the model holds at most one conditional (the `conditional`
field is a single optional slot), and the last write wins: if the scan step
at index `j` leaves the conditional set to `cj` (the `IF` at `j` parsed
successfully) and no step after `j` changes the conditional slot, then the
final model's conditional is exactly `cj` — whatever earlier `IF` blocks
had stored there is overwritten. -/
theorem claim_C9_last_if_wins (cfg : Config) (tokens : List String)
    (j : Nat) (cj : Conditional)
    (hj : j < tokens.length)
    (hset : (scanFrom cfg tokens initState 0 (j + 1)).conditional = some cj)
    (hlater : ∀ k, j < k → k < tokens.length →
        (stepCommand cfg tokens (scanFrom cfg tokens initState 0 k) k).conditional
          = (scanFrom cfg tokens initState 0 k).conditional) :
    (parseCommandsTokens cfg tokens).conditional = some cj := by
  have key : ∀ m, j + 1 ≤ m → m ≤ tokens.length →
      (scanFrom cfg tokens initState 0 m).conditional = some cj := by
    intro m
    induction m with
    | zero => intro h1 _; omega
    | succ m ih =>
      intro h1 h2
      by_cases hm : j + 1 ≤ m
      · rw [scanFrom_succ cfg tokens m initState 0,
          show 0 + m = m from by omega,
          hlater m (by omega) (by omega)]
        exact ih hm (by omega)
      · have hmj : m = j := by omega
        subst hmj
        exact hset
  exact key tokens.length (by omega) (Nat.le_refl _)

/-- Witness for `claim_C9_last_if_wins`: two well-formed `IF` blocks; the
model keeps the conditional of the second (button B) one. -/
theorem claim_C9_witness :
    (parseCommandsTokens cfg1
      ["IF", "PRESS BUTTON", "A", "THEN", "SHOW", "SAD",
       "IF", "PRESS BUTTON", "B", "THEN", "SHOW", "HAPPY"]).conditional
      = some { condition_js := "input.buttonIsPressed(Button.B)",
               then_actions := ["basic.showIcon(IconNames.Happy)"],
               else_actions := [] } := by
  refine claim_C9_last_if_wins cfg1 _ 6 _ (by decide) (by decide) ?_
  intro k h1 h2
  simp only [List.length_cons, List.length_nil] at h2
  interval_cases k <;> decide

/-- `token(pos)` on a cons cell, head. -/
theorem tokenAt_cons_zero (a : String) (l : List String) :
    tokenAt (a :: l) 0 = some a := by
  simp [tokenAt]

/-- `token(pos)` on a cons cell, tail. -/
theorem tokenAt_cons_succ (a : String) (l : List String) (n : Nat) :
    tokenAt (a :: l) (n + 1) = tokenAt l n := by
  simp only [tokenAt, List.length_cons, Nat.add_lt_add_iff_right, List.getD_cons_succ]

/-- Two `handle_event` calls whose bodies parse identically append the same
handler (they may mark different index ranges consumed, but the handler
list comes out the same). -/
theorem handleEvent_eventHandlers (cfg : Config) (t₁ t₂ : List String)
    (st : ParseState) (b₁ s₁ b₂ s₂ : Nat) (trig : TriggerType)
    (h : parse_actions_from cfg t₁ b₁ s₁ = parse_actions_from cfg t₂ b₂ s₂) :
    (handleEvent cfg t₁ st b₁ s₁ trig).eventHandlers
      = (handleEvent cfg t₂ st b₂ s₂ trig).eventHandlers := by
  unfold handleEvent
  rw [h]
  by_cases hh : (parse_actions_from cfg t₂ b₂ s₂).1 ≠ []
  · rw [if_pos hh, if_pos hh]
  · rw [if_neg hh, if_neg hh]

/-- `handle_event` either leaves the handler list alone or appends one
handler carrying exactly the trigger it was called with. -/
theorem handleEvent_trigger_mem (cfg : Config) (tokens : List String)
    (st : ParseState) (baseIndex startOffset : Nat) (trig : TriggerType)
    (h : Handler)
    (hm : h ∈ (handleEvent cfg tokens st baseIndex startOffset trig).eventHandlers) :
    h ∈ st.eventHandlers ∨ h.trigger = trig := by
  unfold handleEvent at hm
  dsimp only at hm
  split_ifs at hm
  · simp only [List.mem_append, List.mem_singleton] at hm
    rcases hm with hm | hm
    · exact Or.inl hm
    · right
      rw [hm]
  · exact Or.inl hm

/-- The split-`ON` cascade never produces a `button "AB"` handler: the
guard of the `A`-then-`B` branch implies the guard of the earlier
`token(index+3) ∈ {A, B}` branch, so the `AB` branch is dead code, and
every other branch carries a different trigger. -/
theorem stepOn_no_ab (cfg : Config) (tokens : List String) (st : ParseState)
    (index : Nat) (h : Handler)
    (hm : h ∈ (stepOn cfg tokens st index).eventHandlers) :
    h ∈ st.eventHandlers ∨ h.trigger ≠ TriggerType.button "AB" := by
  unfold stepOn at hm
  dsimp only at hm
  by_cases h1 : tokenAt tokens (index + 1) = some "SHAKE"
  · rw [if_pos h1] at hm
    rcases handleEvent_trigger_mem cfg tokens st index _ _ h hm with hmem | htr
    · exact Or.inl hmem
    · right
      rw [htr]
      decide
  · rw [if_neg h1] at hm
    by_cases h2 : tokenAt tokens (index + 1) = some "HEAR" ∧ tokenAt tokens (index + 2) = some "LOUD" ∧ tokenAt tokens (index + 3) = some "SOUND"
    · rw [if_pos h2] at hm
      rcases handleEvent_trigger_mem cfg tokens st index _ _ h hm with hmem | htr
      · exact Or.inl hmem
      · right
        rw [htr]
        decide
    · rw [if_neg h2] at hm
      by_cases h3 : tokenAt tokens (index + 1) = some "HEAR" ∧ tokenAt tokens (index + 2) = some "QUIET" ∧ tokenAt tokens (index + 3) = some "SOUND"
      · rw [if_pos h3] at hm
        rcases handleEvent_trigger_mem cfg tokens st index _ _ h hm with hmem | htr
        · exact Or.inl hmem
        · right
          rw [htr]
          decide
      · rw [if_neg h3] at hm
        by_cases h4 : tokenAt tokens (index + 1) = some "RADIO" ∧ tokenAt tokens (index + 2) = some "RECEIVES"
        · rw [if_pos h4] at hm
          rcases handleEvent_trigger_mem cfg tokens st index _ _ h hm with hmem | htr
          · exact Or.inl hmem
          · right
            rw [htr]
            decide
        · rw [if_neg h4] at hm
          by_cases h5 : tokenAt tokens (index + 1) = some "RADIO RECEIVES"
          · rw [if_pos h5] at hm
            rcases handleEvent_trigger_mem cfg tokens st index _ _ h hm with hmem | htr
            · exact Or.inl hmem
            · right
              rw [htr]
              decide
          · rw [if_neg h5] at hm
            by_cases h6 : tokenAt tokens (index + 1) = some "HEAR LOUD SOUND"
            · rw [if_pos h6] at hm
              rcases handleEvent_trigger_mem cfg tokens st index _ _ h hm with hmem | htr
              · exact Or.inl hmem
              · right
                rw [htr]
                decide
            · rw [if_neg h6] at hm
              by_cases h7 : tokenAt tokens (index + 1) = some "HEAR QUIET SOUND"
              · rw [if_pos h7] at hm
                rcases handleEvent_trigger_mem cfg tokens st index _ _ h hm with hmem | htr
                · exact Or.inl hmem
                · right
                  rw [htr]
                  decide
              · rw [if_neg h7] at hm
                rw [if_neg h2, if_neg h3] at hm
                by_cases h10 : (tokenAt tokens (index + 1) = some "PRESS" ∧ tokenAt tokens (index + 2) = some "BUTTON" ∧ (tokenAt tokens (index + 3) = some "A" ∨ tokenAt tokens (index + 3) = some "B")) ∨ (tokenAt tokens (index + 1) = some "PRESS BUTTON" ∧ (tokenAt tokens (index + 2) = some "A" ∨ tokenAt tokens (index + 2) = some "B"))
                · rw [if_pos h10] at hm
                  rcases handleEvent_trigger_mem cfg tokens st index _ _ h hm with hmem | htr
                  · exact Or.inl hmem
                  · right
                    rw [htr]
                    intro heq
                    injection heq with hbtn
                    by_cases hp : tokenAt tokens (index + 1) = some "PRESS"
                    · rw [if_pos hp] at hbtn
                      rcases h10 with ⟨_, _, h3ab⟩ | ⟨hpb, _⟩
                      · rcases h3ab with h3a | h3b
                        · rw [h3a] at hbtn
                          exact absurd hbtn (by decide)
                        · rw [h3b] at hbtn
                          exact absurd hbtn (by decide)
                      · rw [hp] at hpb
                        exact absurd hpb (by decide)
                    · rw [if_neg hp] at hbtn
                      rcases h10 with ⟨hp2, _, _⟩ | ⟨_, h2ab⟩
                      · exact hp hp2
                      · rcases h2ab with h2a | h2b
                        · rw [h2a] at hbtn
                          exact absurd hbtn (by decide)
                        · rw [h2b] at hbtn
                          exact absurd hbtn (by decide)
                · rw [if_neg h10] at hm
                  have h11 : ¬((tokenAt tokens (index + 1) = some "PRESS" ∧ tokenAt tokens (index + 2) = some "BUTTON" ∧ tokenAt tokens (index + 3) = some "A" ∧ tokenAt tokens (index + 4) = some "B") ∨ (tokenAt tokens (index + 1) = some "PRESS BUTTON" ∧ tokenAt tokens (index + 2) = some "A" ∧ tokenAt tokens (index + 3) = some "B")) := by
                    intro hc
                    apply h10
                    rcases hc with ⟨hp1, hq1, ha1, _⟩ | ⟨hp2, ha2, _⟩
                    · exact Or.inl ⟨hp1, hq1, Or.inl ha1⟩
                    · exact Or.inr ⟨hp2, Or.inl ha2⟩
                  rw [if_neg h11] at hm
                  by_cases h12 : tokenAt tokens (index + 1) = some "TILT" ∧ tokenAt tokens (index + 2) = some "UP"
                  · rw [if_pos h12] at hm
                    rcases handleEvent_trigger_mem cfg tokens st index _ _ h hm with hmem | htr
                    · exact Or.inl hmem
                    · right
                      rw [htr]
                      decide
                  · rw [if_neg h12] at hm
                    by_cases h13 : tokenAt tokens (index + 1) = some "TILT" ∧ tokenAt tokens (index + 2) = some "DOWN"
                    · rw [if_pos h13] at hm
                      rcases handleEvent_trigger_mem cfg tokens st index _ _ h hm with hmem | htr
                      · exact Or.inl hmem
                      · right
                        rw [htr]
                        decide
                    · rw [if_neg h13] at hm
                      by_cases h14 : tokenAt tokens (index + 1) = some "TILT" ∧ tokenAt tokens (index + 2) = some "LEFT"
                      · rw [if_pos h14] at hm
                        rcases handleEvent_trigger_mem cfg tokens st index _ _ h hm with hmem | htr
                        · exact Or.inl hmem
                        · right
                          rw [htr]
                          decide
                      · rw [if_neg h14] at hm
                        by_cases h15 : tokenAt tokens (index + 1) = some "TILT" ∧ tokenAt tokens (index + 2) = some "RIGHT"
                        · rw [if_pos h15] at hm
                          rcases handleEvent_trigger_mem cfg tokens st index _ _ h hm with hmem | htr
                          · exact Or.inl hmem
                          · right
                            rw [htr]
                            decide
                        · rw [if_neg h15] at hm
                          by_cases h16 : tokenAt tokens (index + 1) = some "LOGO" ∧ tokenAt tokens (index + 2) = some "UP"
                          · rw [if_pos h16] at hm
                            rcases handleEvent_trigger_mem cfg tokens st index _ _ h hm with hmem | htr
                            · exact Or.inl hmem
                            · right
                              rw [htr]
                              decide
                          · rw [if_neg h16] at hm
                            by_cases h17 : tokenAt tokens (index + 1) = some "LOGO" ∧ tokenAt tokens (index + 2) = some "DOWN"
                            · rw [if_pos h17] at hm
                              rcases handleEvent_trigger_mem cfg tokens st index _ _ h hm with hmem | htr
                              · exact Or.inl hmem
                              · right
                                rw [htr]
                                decide
                            · rw [if_neg h17] at hm
                              exact Or.inl hm

/-- The body phase of the `IF` branch never touches the handler list. -/
theorem stepIfBody_eventHandlers (cfg : Config) (tokens : List String)
    (st : ParseState) (index : Nat) (condJs : String) (thenPos : Nat) :
    (stepIfBody cfg tokens st index condJs thenPos).eventHandlers
      = st.eventHandlers := by
  unfold stepIfBody
  dsimp only
  split_ifs <;> rfl

/-- One top-level scan step never produces a `button "AB"` handler: the
merged `ON <phrase>` branch dispatches only non-button triggers, the split
`ON` cascade cannot reach its `AB` branch, and every other branch leaves
the handler list alone. -/
theorem stepCommand_no_ab (cfg : Config) (tokens : List String)
    (st : ParseState) (index : Nat) (h : Handler)
    (hm : h ∈ (stepCommand cfg tokens st index).eventHandlers) :
    h ∈ st.eventHandlers ∨ h.trigger ≠ TriggerType.button "AB" := by
  unfold stepCommand at hm
  dsimp only at hm
  by_cases d1 : index ∈ st.consumed
  · rw [if_pos d1] at hm
    exact Or.inl hm
  · rw [if_neg d1] at hm
    by_cases d2 : tokens.getD index "" = "CHANNEL"
    · rw [if_pos d2] at hm
      by_cases d2a : index > 0
      · rw [if_pos d2a] at hm
        exact Or.inl hm
      · rw [if_neg d2a] at hm
        exact Or.inl hm
    · rw [if_neg d2] at hm
      by_cases d3 : tokens.getD index "" = "SEND A" ∧ index + 1 < tokens.length ∧ tokens.getD (index + 1) "" = "MESSAGE"
      · rw [if_pos d3] at hm
        split at hm
        · split at hm
          · exact Or.inl hm
          · exact Or.inl hm
        · exact Or.inl hm
      · rw [if_neg d3] at hm
        by_cases d4 : tokens.getD index "" = "SHOW"
        · rw [if_pos d4] at hm
          split at hm
          · exact Or.inl hm
          · exact Or.inl hm
          · exact Or.inl hm
        · rw [if_neg d4] at hm
          by_cases d5 : tokens.getD index "" = "TURN ON"
          · rw [if_pos d5] at hm
            split at hm
            · split at hm
              · exact Or.inl hm
              · exact Or.inl hm
            · exact Or.inl hm
          · rw [if_neg d5] at hm
            by_cases d6 : tokens.getD index "" = "TURN OFF"
            · rw [if_pos d6] at hm
              split at hm
              · split at hm
                · exact Or.inl hm
                · exact Or.inl hm
              · exact Or.inl hm
            · rw [if_neg d6] at hm
              by_cases d7 : pyStartsWith (tokens.getD index "") "ON " = true
              · rw [if_pos d7] at hm
                split at hm
                · rcases handleEvent_trigger_mem cfg tokens st index _ _ h hm with hmem | htr
                  · exact Or.inl hmem
                  · right
                    rw [htr]
                    decide
                split at hm
                · rcases handleEvent_trigger_mem cfg tokens st index _ _ h hm with hmem | htr
                  · exact Or.inl hmem
                  · right
                    rw [htr]
                    decide
                split at hm
                · rcases handleEvent_trigger_mem cfg tokens st index _ _ h hm with hmem | htr
                  · exact Or.inl hmem
                  · right
                    rw [htr]
                    decide
                split at hm
                · rcases handleEvent_trigger_mem cfg tokens st index _ _ h hm with hmem | htr
                  · exact Or.inl hmem
                  · right
                    rw [htr]
                    decide
                split at hm
                · rcases handleEvent_trigger_mem cfg tokens st index _ _ h hm with hmem | htr
                  · exact Or.inl hmem
                  · right
                    rw [htr]
                    decide
                split at hm
                · rcases handleEvent_trigger_mem cfg tokens st index _ _ h hm with hmem | htr
                  · exact Or.inl hmem
                  · right
                    rw [htr]
                    decide
                split at hm
                · rcases handleEvent_trigger_mem cfg tokens st index _ _ h hm with hmem | htr
                  · exact Or.inl hmem
                  · right
                    rw [htr]
                    decide
                split at hm
                · rcases handleEvent_trigger_mem cfg tokens st index _ _ h hm with hmem | htr
                  · exact Or.inl hmem
                  · right
                    rw [htr]
                    decide
                exact Or.inl hm
              · rw [if_neg d7] at hm
                by_cases d8 : tokens.getD index "" = "ON"
                · rw [if_pos d8] at hm
                  exact stepOn_no_ab cfg tokens st index h hm
                · rw [if_neg d8] at hm
                  by_cases d9 : tokens.getD index "" = "IF"
                  · rw [if_pos d9] at hm
                    split at hm
                    · exact Or.inl hm
                    · rw [stepIfBody_eventHandlers] at hm
                      exact Or.inl hm
                  · rw [if_neg d9] at hm
                    exact Or.inl hm

/-- The scan invariant: if no handler so far has the `button "AB"` trigger,
none ever will. -/
theorem scanFrom_no_ab (cfg : Config) (tokens : List String) :
    ∀ (n : Nat) (st : ParseState) (idx : Nat),
    (∀ h ∈ st.eventHandlers, h.trigger ≠ TriggerType.button "AB") →
    ∀ h ∈ (scanFrom cfg tokens st idx n).eventHandlers,
      h.trigger ≠ TriggerType.button "AB" := by
  intro n
  induction n with
  | zero =>
    intro st idx hinv h hm
    exact hinv h hm
  | succ n ih =>
    intro st idx hinv h hm
    have hstep : ∀ h' ∈ (stepCommand cfg tokens st idx).eventHandlers,
        h'.trigger ≠ TriggerType.button "AB" := by
      intro h' hm'
      rcases stepCommand_no_ab cfg tokens st idx h' hm' with hmem | hne
      · exact hinv h' hmem
      · exact hne
    exact ih (stepCommand cfg tokens st idx) (idx + 1) hstep h hm

/-- No input at all makes `parse_commands` emit a press-button-`AB`
handler. -/
theorem parseCommandsTokens_no_ab (cfg : Config) (tokens : List String)
    (h : Handler) (hm : h ∈ (parseCommandsTokens cfg tokens).eventHandlers) :
    h.trigger ≠ TriggerType.button "AB" :=
  scanFrom_no_ab cfg tokens tokens.length initState 0
    (fun h' hm' => absurd hm' (List.not_mem_nil h')) h hm

/-- Claim C4 (counterexample): the merged single-token forms
`ON PRESS BUTTON A` and `ON LOGO UP` are not recognized as triggers (no
handler is produced, unlike the split form), the combined `AB` token is
not accepted for the press-button-AB trigger, and even the fully split
`ON` / `PRESS` / `BUTTON` / `A` / `B` form yields a button-`A` handler
(the `B` token falls into the handler body), not a button-`AB` one: the
`token(index+3) ∈ {A, B}` guard shadows the `A`-then-`B` guard. -/
theorem claim_C4_counterexample :
    (parseCommandsTokens cfg1 ["ON PRESS BUTTON A", "SHOW", "HAPPY"]).eventHandlers = []
    ∧ (parseCommandsTokens cfg1 ["ON", "PRESS", "BUTTON", "A", "SHOW", "HAPPY"]).eventHandlers
        = [{ trigger := TriggerType.button "A",
             actions := ["basic.showIcon(IconNames.Happy)"] }]
    ∧ (parseCommandsTokens cfg1
        ["ON", "PRESS", "BUTTON", "AB", "SHOW", "HAPPY"]).eventHandlers = []
    ∧ (parseCommandsTokens cfg1
        ["ON", "PRESS", "BUTTON", "A", "B", "SHOW", "HAPPY"]).eventHandlers
        = [{ trigger := TriggerType.button "A",
             actions := ["basic.showIcon(IconNames.Happy)"] }]
    ∧ (parseCommandsTokens cfg1 ["ON LOGO UP", "SHOW", "HAPPY"]).eventHandlers = [] := by
  decide

/-- Claim C4 (amended): for the triggers shake, tilt-left/right/up/down,
radio-receives, hear-loud-sound and hear-quiet-sound, the merged
single-token `ON <phrase>` form and the fully split multi-token form are
accepted as equivalent: the merged form dispatches to the same trigger
(as one `handle_event` call), and both forms produce the same event handler
list, the body being parsed from the same tokens following the trigger.
Press-button triggers are recognized only in split or partially merged
form yielding a button-`A` or button-`B` handler — never via a merged
`ON PRESS BUTTON x` token or the combined `AB` token — and the
press-button-`AB` trigger is unreachable on every input (third conjunct):
the `token(index+3) ∈ \x7bA, B\x7d` guard shadows the `A`-then-`B` guard, so
`ON`/`PRESS`/`BUTTON`/`A`/`B` yields a button-`A` handler.  Logo-up/down
is recognized only in split form. -/
theorem claim_C4_amended (cfg : Config) (st : ParseState) (rest : List String)
    (p : String) (trig : TriggerType)
    (hp : (p, trig) ∈ mergedTriggerPhrases)
    (hc : 0 ∉ st.consumed) :
    stepCommand cfg (("ON " ++ p) :: rest) st 0
      = handleEvent cfg (("ON " ++ p) :: rest) st 0 1 trig
    ∧ (stepCommand cfg (("ON " ++ p) :: rest) st 0).eventHandlers
      = (stepCommand cfg
          ("ON" :: ((splitOnChar ' ' p.toList).map String.mk ++ rest)) st 0).eventHandlers
    ∧ ∀ (ts : List String) (hh : Handler),
        hh ∈ (parseCommandsTokens cfg ts).eventHandlers
        → hh.trigger ≠ TriggerType.button "AB" := by
  have hab : ∀ (ts : List String) (hh : Handler),
      hh ∈ (parseCommandsTokens cfg ts).eventHandlers
      → hh.trigger ≠ TriggerType.button "AB" :=
    fun ts hh hm => parseCommandsTokens_no_ab cfg ts hh hm
  fin_cases hp
  · show stepCommand cfg ("ON SHAKE" :: rest) st 0
        = handleEvent cfg ("ON SHAKE" :: rest) st 0 1 TriggerType.shake
      ∧ (stepCommand cfg ("ON SHAKE" :: rest) st 0).eventHandlers
        = (stepCommand cfg ("ON" :: "SHAKE" :: rest) st 0).eventHandlers
      ∧ ∀ (ts : List String) (hh : Handler),
          hh ∈ (parseCommandsTokens cfg ts).eventHandlers
          → hh.trigger ≠ TriggerType.button "AB"
    have e1 : stepCommand cfg ("ON SHAKE" :: rest) st 0
        = handleEvent cfg ("ON SHAKE" :: rest) st 0 1 TriggerType.shake := by
      have hsw : pyStartsWith "ON SHAKE" "ON " = true := rfl
      have hdp : pyDrop "ON SHAKE" 3 = "SHAKE" := rfl
      simp [stepCommand, hc, hsw, hdp]
    have e2 : stepCommand cfg ("ON" :: "SHAKE" :: rest) st 0
        = handleEvent cfg ("ON" :: "SHAKE" :: rest) st 0 2 TriggerType.shake := by
      have hsw2 : pyStartsWith "ON" "ON " = false := rfl
      simp [stepCommand, stepOn, tokenAt_cons_succ, tokenAt_cons_zero, hc, hsw2]
    refine ⟨e1, ?_, hab⟩
    rw [e1, e2]
    exact handleEvent_eventHandlers cfg _ _ st 0 1 0 2 TriggerType.shake rfl
  · show stepCommand cfg ("ON TILT LEFT" :: rest) st 0
        = handleEvent cfg ("ON TILT LEFT" :: rest) st 0 1 TriggerType.tilt_left
      ∧ (stepCommand cfg ("ON TILT LEFT" :: rest) st 0).eventHandlers
        = (stepCommand cfg ("ON" :: "TILT" :: "LEFT" :: rest) st 0).eventHandlers
      ∧ ∀ (ts : List String) (hh : Handler),
          hh ∈ (parseCommandsTokens cfg ts).eventHandlers
          → hh.trigger ≠ TriggerType.button "AB"
    have e1 : stepCommand cfg ("ON TILT LEFT" :: rest) st 0
        = handleEvent cfg ("ON TILT LEFT" :: rest) st 0 1 TriggerType.tilt_left := by
      have hsw : pyStartsWith "ON TILT LEFT" "ON " = true := rfl
      have hdp : pyDrop "ON TILT LEFT" 3 = "TILT LEFT" := rfl
      simp [stepCommand, hc, hsw, hdp]
    have e2 : stepCommand cfg ("ON" :: "TILT" :: "LEFT" :: rest) st 0
        = handleEvent cfg ("ON" :: "TILT" :: "LEFT" :: rest) st 0 3 TriggerType.tilt_left := by
      have hsw2 : pyStartsWith "ON" "ON " = false := rfl
      simp [stepCommand, stepOn, tokenAt_cons_succ, tokenAt_cons_zero, hc, hsw2]
    refine ⟨e1, ?_, hab⟩
    rw [e1, e2]
    exact handleEvent_eventHandlers cfg _ _ st 0 1 0 3 TriggerType.tilt_left rfl
  · show stepCommand cfg ("ON TILT RIGHT" :: rest) st 0
        = handleEvent cfg ("ON TILT RIGHT" :: rest) st 0 1 TriggerType.tilt_right
      ∧ (stepCommand cfg ("ON TILT RIGHT" :: rest) st 0).eventHandlers
        = (stepCommand cfg ("ON" :: "TILT" :: "RIGHT" :: rest) st 0).eventHandlers
      ∧ ∀ (ts : List String) (hh : Handler),
          hh ∈ (parseCommandsTokens cfg ts).eventHandlers
          → hh.trigger ≠ TriggerType.button "AB"
    have e1 : stepCommand cfg ("ON TILT RIGHT" :: rest) st 0
        = handleEvent cfg ("ON TILT RIGHT" :: rest) st 0 1 TriggerType.tilt_right := by
      have hsw : pyStartsWith "ON TILT RIGHT" "ON " = true := rfl
      have hdp : pyDrop "ON TILT RIGHT" 3 = "TILT RIGHT" := rfl
      simp [stepCommand, hc, hsw, hdp]
    have e2 : stepCommand cfg ("ON" :: "TILT" :: "RIGHT" :: rest) st 0
        = handleEvent cfg ("ON" :: "TILT" :: "RIGHT" :: rest) st 0 3 TriggerType.tilt_right := by
      have hsw2 : pyStartsWith "ON" "ON " = false := rfl
      simp [stepCommand, stepOn, tokenAt_cons_succ, tokenAt_cons_zero, hc, hsw2]
    refine ⟨e1, ?_, hab⟩
    rw [e1, e2]
    exact handleEvent_eventHandlers cfg _ _ st 0 1 0 3 TriggerType.tilt_right rfl
  · show stepCommand cfg ("ON TILT UP" :: rest) st 0
        = handleEvent cfg ("ON TILT UP" :: rest) st 0 1 TriggerType.tilt_up
      ∧ (stepCommand cfg ("ON TILT UP" :: rest) st 0).eventHandlers
        = (stepCommand cfg ("ON" :: "TILT" :: "UP" :: rest) st 0).eventHandlers
      ∧ ∀ (ts : List String) (hh : Handler),
          hh ∈ (parseCommandsTokens cfg ts).eventHandlers
          → hh.trigger ≠ TriggerType.button "AB"
    have e1 : stepCommand cfg ("ON TILT UP" :: rest) st 0
        = handleEvent cfg ("ON TILT UP" :: rest) st 0 1 TriggerType.tilt_up := by
      have hsw : pyStartsWith "ON TILT UP" "ON " = true := rfl
      have hdp : pyDrop "ON TILT UP" 3 = "TILT UP" := rfl
      simp [stepCommand, hc, hsw, hdp]
    have e2 : stepCommand cfg ("ON" :: "TILT" :: "UP" :: rest) st 0
        = handleEvent cfg ("ON" :: "TILT" :: "UP" :: rest) st 0 3 TriggerType.tilt_up := by
      have hsw2 : pyStartsWith "ON" "ON " = false := rfl
      simp [stepCommand, stepOn, tokenAt_cons_succ, tokenAt_cons_zero, hc, hsw2]
    refine ⟨e1, ?_, hab⟩
    rw [e1, e2]
    exact handleEvent_eventHandlers cfg _ _ st 0 1 0 3 TriggerType.tilt_up rfl
  · show stepCommand cfg ("ON TILT DOWN" :: rest) st 0
        = handleEvent cfg ("ON TILT DOWN" :: rest) st 0 1 TriggerType.tilt_down
      ∧ (stepCommand cfg ("ON TILT DOWN" :: rest) st 0).eventHandlers
        = (stepCommand cfg ("ON" :: "TILT" :: "DOWN" :: rest) st 0).eventHandlers
      ∧ ∀ (ts : List String) (hh : Handler),
          hh ∈ (parseCommandsTokens cfg ts).eventHandlers
          → hh.trigger ≠ TriggerType.button "AB"
    have e1 : stepCommand cfg ("ON TILT DOWN" :: rest) st 0
        = handleEvent cfg ("ON TILT DOWN" :: rest) st 0 1 TriggerType.tilt_down := by
      have hsw : pyStartsWith "ON TILT DOWN" "ON " = true := rfl
      have hdp : pyDrop "ON TILT DOWN" 3 = "TILT DOWN" := rfl
      simp [stepCommand, hc, hsw, hdp]
    have e2 : stepCommand cfg ("ON" :: "TILT" :: "DOWN" :: rest) st 0
        = handleEvent cfg ("ON" :: "TILT" :: "DOWN" :: rest) st 0 3 TriggerType.tilt_down := by
      have hsw2 : pyStartsWith "ON" "ON " = false := rfl
      simp [stepCommand, stepOn, tokenAt_cons_succ, tokenAt_cons_zero, hc, hsw2]
    refine ⟨e1, ?_, hab⟩
    rw [e1, e2]
    exact handleEvent_eventHandlers cfg _ _ st 0 1 0 3 TriggerType.tilt_down rfl
  · show stepCommand cfg ("ON RADIO RECEIVES" :: rest) st 0
        = handleEvent cfg ("ON RADIO RECEIVES" :: rest) st 0 1 TriggerType.radio_receives_message
      ∧ (stepCommand cfg ("ON RADIO RECEIVES" :: rest) st 0).eventHandlers
        = (stepCommand cfg ("ON" :: "RADIO" :: "RECEIVES" :: rest) st 0).eventHandlers
      ∧ ∀ (ts : List String) (hh : Handler),
          hh ∈ (parseCommandsTokens cfg ts).eventHandlers
          → hh.trigger ≠ TriggerType.button "AB"
    have e1 : stepCommand cfg ("ON RADIO RECEIVES" :: rest) st 0
        = handleEvent cfg ("ON RADIO RECEIVES" :: rest) st 0 1 TriggerType.radio_receives_message := by
      have hsw : pyStartsWith "ON RADIO RECEIVES" "ON " = true := rfl
      have hdp : pyDrop "ON RADIO RECEIVES" 3 = "RADIO RECEIVES" := rfl
      simp [stepCommand, hc, hsw, hdp]
    have e2 : stepCommand cfg ("ON" :: "RADIO" :: "RECEIVES" :: rest) st 0
        = handleEvent cfg ("ON" :: "RADIO" :: "RECEIVES" :: rest) st 0 3 TriggerType.radio_receives_message := by
      have hsw2 : pyStartsWith "ON" "ON " = false := rfl
      simp [stepCommand, stepOn, tokenAt_cons_succ, tokenAt_cons_zero, hc, hsw2]
    refine ⟨e1, ?_, hab⟩
    rw [e1, e2]
    exact handleEvent_eventHandlers cfg _ _ st 0 1 0 3 TriggerType.radio_receives_message rfl
  · show stepCommand cfg ("ON HEAR LOUD SOUND" :: rest) st 0
        = handleEvent cfg ("ON HEAR LOUD SOUND" :: rest) st 0 1 TriggerType.sound_loud
      ∧ (stepCommand cfg ("ON HEAR LOUD SOUND" :: rest) st 0).eventHandlers
        = (stepCommand cfg ("ON" :: "HEAR" :: "LOUD" :: "SOUND" :: rest) st 0).eventHandlers
      ∧ ∀ (ts : List String) (hh : Handler),
          hh ∈ (parseCommandsTokens cfg ts).eventHandlers
          → hh.trigger ≠ TriggerType.button "AB"
    have e1 : stepCommand cfg ("ON HEAR LOUD SOUND" :: rest) st 0
        = handleEvent cfg ("ON HEAR LOUD SOUND" :: rest) st 0 1 TriggerType.sound_loud := by
      have hsw : pyStartsWith "ON HEAR LOUD SOUND" "ON " = true := rfl
      have hdp : pyDrop "ON HEAR LOUD SOUND" 3 = "HEAR LOUD SOUND" := rfl
      simp [stepCommand, hc, hsw, hdp]
    have e2 : stepCommand cfg ("ON" :: "HEAR" :: "LOUD" :: "SOUND" :: rest) st 0
        = handleEvent cfg ("ON" :: "HEAR" :: "LOUD" :: "SOUND" :: rest) st 0 4 TriggerType.sound_loud := by
      have hsw2 : pyStartsWith "ON" "ON " = false := rfl
      simp [stepCommand, stepOn, tokenAt_cons_succ, tokenAt_cons_zero, hc, hsw2]
    refine ⟨e1, ?_, hab⟩
    rw [e1, e2]
    exact handleEvent_eventHandlers cfg _ _ st 0 1 0 4 TriggerType.sound_loud rfl
  · show stepCommand cfg ("ON HEAR QUIET SOUND" :: rest) st 0
        = handleEvent cfg ("ON HEAR QUIET SOUND" :: rest) st 0 1 TriggerType.sound_quiet
      ∧ (stepCommand cfg ("ON HEAR QUIET SOUND" :: rest) st 0).eventHandlers
        = (stepCommand cfg ("ON" :: "HEAR" :: "QUIET" :: "SOUND" :: rest) st 0).eventHandlers
      ∧ ∀ (ts : List String) (hh : Handler),
          hh ∈ (parseCommandsTokens cfg ts).eventHandlers
          → hh.trigger ≠ TriggerType.button "AB"
    have e1 : stepCommand cfg ("ON HEAR QUIET SOUND" :: rest) st 0
        = handleEvent cfg ("ON HEAR QUIET SOUND" :: rest) st 0 1 TriggerType.sound_quiet := by
      have hsw : pyStartsWith "ON HEAR QUIET SOUND" "ON " = true := rfl
      have hdp : pyDrop "ON HEAR QUIET SOUND" 3 = "HEAR QUIET SOUND" := rfl
      simp [stepCommand, hc, hsw, hdp]
    have e2 : stepCommand cfg ("ON" :: "HEAR" :: "QUIET" :: "SOUND" :: rest) st 0
        = handleEvent cfg ("ON" :: "HEAR" :: "QUIET" :: "SOUND" :: rest) st 0 4 TriggerType.sound_quiet := by
      have hsw2 : pyStartsWith "ON" "ON " = false := rfl
      simp [stepCommand, stepOn, tokenAt_cons_succ, tokenAt_cons_zero, hc, hsw2]
    refine ⟨e1, ?_, hab⟩
    rw [e1, e2]
    exact handleEvent_eventHandlers cfg _ _ st 0 1 0 4 TriggerType.sound_quiet rfl

/-- Witness for `claim_C4_amended`: merged `ON SHAKE` and split
`ON` / `SHAKE` produce the same handler over the body `SHOW HAPPY`, and no
token sequence yields a press-button-`AB` handler. -/
theorem claim_C4_witness :
    stepCommand cfg1 (("ON " ++ "SHAKE") :: ["SHOW", "HAPPY"]) initState 0
      = handleEvent cfg1 (("ON " ++ "SHAKE") :: ["SHOW", "HAPPY"]) initState 0 1
          TriggerType.shake
    ∧ (stepCommand cfg1 (("ON " ++ "SHAKE") :: ["SHOW", "HAPPY"]) initState 0).eventHandlers
      = (stepCommand cfg1
          ("ON" :: ((splitOnChar ' ' "SHAKE".toList).map String.mk ++ ["SHOW", "HAPPY"]))
          initState 0).eventHandlers
    ∧ ∀ (ts : List String) (hh : Handler),
        hh ∈ (parseCommandsTokens cfg1 ts).eventHandlers
        → hh.trigger ≠ TriggerType.button "AB" :=
  claim_C4_amended cfg1 initState ["SHOW", "HAPPY"] "SHAKE" TriggerType.shake
    (by decide) (by decide)

/-- `getD` past a prefix. -/
theorem getD_append_shift (pre l : List String) (k : Nat) (d : String) :
    (pre ++ l).getD (pre.length + k) d = l.getD k d := by
  rw [List.getD_append_right _ _ _ _ (by omega)]
  congr 1
  omega

/-- Splitting a scan into two runs. -/
theorem scanFrom_add (cfg : Config) (tokens : List String) :
    ∀ (m : Nat) (st : ParseState) (idx n : Nat),
    scanFrom cfg tokens st idx (m + n)
      = scanFrom cfg tokens (scanFrom cfg tokens st idx m) (idx + m) n := by
  intro m
  induction m with
  | zero => intro st idx n; simp [scanFrom]
  | succ m ih =>
    intro st idx n
    rw [show m + 1 + n = (m + n) + 1 from by omega]
    show scanFrom cfg tokens (stepCommand cfg tokens st idx) (idx + 1) (m + n) = _
    rw [ih]
    show scanFrom cfg tokens
        (scanFrom cfg tokens (stepCommand cfg tokens st idx) (idx + 1) m)
        (idx + 1 + m) n = _
    congr 1
    omega

/-- Strings with equal character lists are equal. -/
theorem string_eq_of_toList (a b : String) (h : a.toList = b.toList) : a = b := by
  cases a
  cases b
  exact congrArg String.mk h

/-- `toList` distributes over string append. -/
theorem strToList_append (x y : String) : (x ++ y).toList = x.toList ++ y.toList := rfl

/-- A join starting from a non-empty string is non-empty. -/
theorem strJoin_ne_empty (sep : String) (a : String) (t : List String)
    (ha : a.toList ≠ []) : strJoin sep (a :: t) ≠ "" := by
  cases t with
  | nil =>
    intro he
    exact ha (by rw [show strJoin sep [a] = a from rfl] at he; rw [he]; rfl)
  | cons b t2 =>
    intro he
    have h2 : a.toList ++ sep.toList ++ (strJoin sep (b :: t2)).toList = [] := by
      rw [← strToList_append, ← strToList_append,
        show a ++ sep ++ strJoin sep (b :: t2) = strJoin sep (a :: b :: t2) from rfl, he]
      rfl
    simp at h2
    exact ha h2.1

/-- The row strategy on five clean rows, `gridRel` level. -/
theorem gridRel_clean (rows rest : List String)
    (hlen : rows.length = 5) (hclean : ∀ r ∈ rows, CleanRow r) :
    gridRel (rows ++ rest) = (some (strJoin "\n" rows), 5) := by
  have h5 : gridRowLoop 5 (rows ++ rest) = (rows, 5) := by
    rw [← hlen]
    exact gridRowLoop_clean rows rest hclean
  unfold gridRel
  rw [h5]
  simp [hlen]

/-- `parse_show_common` on five clean rows recognizes the grid. -/
theorem showRel_grid (cfg : Config) (rows rest : List String)
    (hlen : rows.length = 5) (hclean : ∀ r ∈ rows, CleanRow r) :
    showRel cfg (rows ++ rest) = ShowParse.grid (strJoin "\n" rows) 5 := by
  unfold showRel
  rw [gridRel_clean rows rest hlen hclean]
  dsimp only
  rw [if_pos ?_]
  cases rows with
  | nil => simp at hlen
  | cons a t =>
    refine strJoin_ne_empty "\n" a t ?_
    have := (hclean a (by simp)).1
    intro he
    rw [he] at this
    simp at this

/-- A clean row differs from any string containing a character outside
`{#,.}`. -/
theorem cleanRow_ne (r : String) (h : CleanRow r) (s : String)
    (hs : ¬ ∀ c ∈ s.toList, c = '#' ∨ c = '.') : r ≠ s :=
  fun he => hs (he ▸ h.2)

/-- A clean row never starts with `ON `. -/
theorem cleanRow_not_on (r : String) (h : CleanRow r) :
    pyStartsWith r "ON " = false := by
  cases hb : pyStartsWith r "ON " with
  | false => rfl
  | true =>
    exfalso
    have hpre : "ON ".toList <+: r.toList := List.isPrefixOf_iff_prefix.mp hb
    obtain ⟨t, ht⟩ := hpre
    have hmem : 'O' ∈ r.toList := by rw [← ht]; simp
    rcases h.2 'O' hmem with h2 | h2 <;> exact absurd h2 (by decide)

/-- A token that starts with `ON ` is determined by its remainder. -/
theorem eventPart_determines (v : String) (p : String)
    (hsw : pyStartsWith v "ON " = true) (hdp : pyDrop v 3 = p) :
    v = String.mk ("ON ".toList ++ p.toList) := by
  obtain ⟨t, ht⟩ := List.isPrefixOf_iff_prefix.mp hsw
  have hdrop : v.toList.drop 3 = t := by
    rw [← ht, show (3 : Nat) = "ON ".toList.length from rfl, List.drop_left]
  have ht2 : t = p.toList := by
    rw [← hdrop, ← hdp]
    rfl
  refine string_eq_of_toList _ _ ?_
  rw [show (String.mk ("ON ".toList ++ p.toList)).toList = "ON ".toList ++ p.toList from rfl,
    ← ht2, ht]

/-- A token containing a bracket match cannot be a merged `ON <phrase>`
token whose full form has no bracket. -/
theorem bracket_not_merged_on (v : String) (inner : List Char) (p : String)
    (h : bracketInner v.toList = some inner)
    (hsw : pyStartsWith v "ON " = true) (hdp : pyDrop v 3 = p)
    (hnone : bracketInner (String.mk ("ON ".toList ++ p.toList)).toList = none) :
    False := by
  rw [eventPart_determines v p hsw hdp, hnone] at h
  cases h

/-- A token containing a bracket match differs from any bracket-free
string. -/
theorem bracket_ne (t : String) (inner : List Char)
    (hb : bracketInner t.toList = some inner)
    (s : String) (hs : bracketInner s.toList = none) : t ≠ s := by
  intro he
  rw [he, hs] at hb
  cases hb

/-- The fuel of `paGo` is irrelevant as long as it covers the suffix
length (each iteration consumes at least one token). -/
theorem paGo_fuel (cfg : Config) : ∀ (fuel₁ : Nat) (l : List String) (fuel₂ : Nat),
    l.length ≤ fuel₁ → l.length ≤ fuel₂ → paGo cfg fuel₁ l = paGo cfg fuel₂ l := by
  intro fuel₁
  induction fuel₁ with
  | zero =>
    intro l fuel₂ h1 _
    have hl : l = [] := List.length_eq_zero.mp (by omega)
    subst hl
    cases fuel₂ <;> rfl
  | succ f ih =>
    intro l fuel₂ h1 h2
    cases l with
    | nil => cases fuel₂ <;> rfl
    | cons cmd rest =>
      cases fuel₂ with
      | zero => simp at h2
      | succ f2 =>
        show paGo cfg (f + 1) (cmd :: rest) = paGo cfg (f2 + 1) (cmd :: rest)
        unfold paGo
        by_cases hstop : cmd = "ELSE" ∨ cmd = "ON" ∨ cmd = "IF"
        · rw [if_pos hstop, if_pos hstop]
        · rw [if_neg hstop, if_neg hstop]
          dsimp only
          rw [ih (rest.drop ((paStep cfg cmd rest).2 - 1)) f2
            (by simp only [List.length_drop, List.length_cons] at h1 ⊢; omega)
            (by simp only [List.length_drop, List.length_cons] at h2 ⊢; omega)]

/-- One step of the action-sequence loop on a non-stopper head token. -/
theorem paRel_cons_step (cfg : Config) (cmd : String) (rest : List String)
    (hstop : ¬(cmd = "ELSE" ∨ cmd = "ON" ∨ cmd = "IF")) :
    paRel cfg (cmd :: rest)
      = (((match (paStep cfg cmd rest).1 with
          | some a => a :: (paRel cfg (rest.drop ((paStep cfg cmd rest).2 - 1))).1
          | none => (paRel cfg (rest.drop ((paStep cfg cmd rest).2 - 1))).1)),
         (paStep cfg cmd rest).2
           + (paRel cfg (rest.drop ((paStep cfg cmd rest).2 - 1))).2) := by
  show paGo cfg (rest.length + 1) (cmd :: rest) = _
  unfold paGo
  rw [if_neg hstop]
  dsimp only
  rw [paGo_fuel cfg rest.length (rest.drop ((paStep cfg cmd rest).2 - 1))
    ((rest.drop ((paStep cfg cmd rest).2 - 1)).length)
    (by simp [List.length_drop]) (Nat.le_refl _)]
  rfl

/-- `paStep` on a `SHOW` followed by five clean rows. -/
theorem paStep_show_grid (cfg : Config) (r1 r2 r3 r4 r5 : String) (rest : List String)
    (hclean : ∀ r ∈ [r1, r2, r3, r4, r5], CleanRow r) :
    paStep cfg "SHOW" ([r1, r2, r3, r4, r5] ++ rest)
      = (some (renderGridAction cfg (strJoin "\n" [r1, r2, r3, r4, r5])), 6) := by
  unfold paStep
  rw [if_pos ⟨rfl, by simp⟩, showRel_grid cfg [r1, r2, r3, r4, r5] rest (by simp) hclean]

/-- `paStep` on a `TURN ON` followed by a bracketed known pin. -/
theorem paStep_turn_on (cfg : Config) (t : String) (inner : List Char)
    (rest : List String)
    (hb : bracketInner t.toList = some inner)
    (hne : normalize_pin_token cfg (String.mk inner) ≠ "")
    (hpin : (cfg.pins.lookup (normalize_pin_token cfg (String.mk inner))).isSome) :
    paStep cfg "TURN ON" (t :: rest)
      = (some (renderPinWrite cfg (normalize_pin_token cfg (String.mk inner)) 1), 2) := by
  unfold paStep
  rw [if_neg (by simp), if_pos rfl]
  have hfb : findBracketPin cfg (t :: rest) 5 1
      = some (normalize_pin_token cfg (String.mk inner), 1) := by
    unfold findBracketPin
    rw [if_neg (by omega), hb]
  rw [hfb]
  dsimp only
  rw [if_pos ⟨hne, hpin⟩]

/-- `paStep` on a `TURN OFF` followed by a bracketed known pin. -/
theorem paStep_turn_off (cfg : Config) (t : String) (inner : List Char)
    (rest : List String)
    (hb : bracketInner t.toList = some inner)
    (hne : normalize_pin_token cfg (String.mk inner) ≠ "")
    (hpin : (cfg.pins.lookup (normalize_pin_token cfg (String.mk inner))).isSome) :
    paStep cfg "TURN OFF" (t :: rest)
      = (some (renderPinWrite cfg (normalize_pin_token cfg (String.mk inner)) 0), 2) := by
  unfold paStep
  rw [if_neg (by simp), if_neg (by simp), if_pos rfl]
  have hfb : findBracketPin cfg (t :: rest) 5 1
      = some (normalize_pin_token cfg (String.mk inner), 1) := by
    unfold findBracketPin
    rw [if_neg (by omega), hb]
  rw [hfb]
  dsimp only
  rw [if_pos ⟨hne, hpin⟩]

/-- The action-sequence parser on a concatenation of good blocks renders
exactly the block actions, in order. -/
theorem paRel_blocks (cfg : Config) :
    ∀ (blocks : List (List String × TopAction)),
    (∀ p ∈ blocks, GoodBlock cfg p.1 p.2) →
    (paRel cfg ((blocks.map Prod.fst).flatten)).1
      = (blocks.map Prod.snd).map (generateAction cfg) := by
  intro blocks
  induction blocks with
  | nil => intro _; rfl
  | cons b bs ih =>
    intro h
    obtain ⟨B, a⟩ := b
    have hb := h (B, a) (by simp)
    have ihb := ih (fun p hp => h p (by simp [hp]))
    cases hb with
    | showGrid r1 r2 r3 r4 r5 h1 h2 h3 h4 h5 =>
      show (paRel cfg ("SHOW" :: ([r1, r2, r3, r4, r5] ++ (bs.map Prod.fst).flatten))).1
          = generateAction cfg (TopAction.show_grid (strJoin "\n" [r1, r2, r3, r4, r5]))
            :: (bs.map Prod.snd).map (generateAction cfg)
      rw [paRel_cons_step cfg "SHOW" _ (by simp),
        paStep_show_grid cfg r1 r2 r3 r4 r5 _ (by
          intro r hr
          simp only [List.mem_cons, List.not_mem_nil, or_false] at hr
          rcases hr with h1e | h1e | h1e | h1e | h1e <;> subst h1e <;> assumption)]
      show generateAction cfg (TopAction.show_grid (strJoin "\n" [r1, r2, r3, r4, r5]))
            :: (paRel cfg (([r1, r2, r3, r4, r5] ++ (bs.map Prod.fst).flatten).drop 5)).1
          = _
      rw [show ([r1, r2, r3, r4, r5] ++ (bs.map Prod.fst).flatten).drop 5
          = (bs.map Prod.fst).flatten from rfl, ihb]
    | turnOn t inner hbk hne hpin =>
      show (paRel cfg ("TURN ON" :: (t :: (bs.map Prod.fst).flatten))).1
          = generateAction cfg
              (TopAction.turn_on_pin (normalize_pin_token cfg (String.mk inner)))
            :: (bs.map Prod.snd).map (generateAction cfg)
      rw [paRel_cons_step cfg "TURN ON" _ (by simp),
        paStep_turn_on cfg t inner _ hbk hne hpin]
      show generateAction cfg
            (TopAction.turn_on_pin (normalize_pin_token cfg (String.mk inner)))
            :: (paRel cfg ((t :: (bs.map Prod.fst).flatten).drop 1)).1
          = _
      rw [show (t :: (bs.map Prod.fst).flatten).drop 1 = (bs.map Prod.fst).flatten from rfl,
        ihb]
    | turnOff t inner hbk hne hpin =>
      show (paRel cfg ("TURN OFF" :: (t :: (bs.map Prod.fst).flatten))).1
          = generateAction cfg
              (TopAction.turn_off_pin (normalize_pin_token cfg (String.mk inner)))
            :: (bs.map Prod.snd).map (generateAction cfg)
      rw [paRel_cons_step cfg "TURN OFF" _ (by simp),
        paStep_turn_off cfg t inner _ hbk hne hpin]
      show generateAction cfg
            (TopAction.turn_off_pin (normalize_pin_token cfg (String.mk inner)))
            :: (paRel cfg ((t :: (bs.map Prod.fst).flatten).drop 1)).1
          = _
      rw [show (t :: (bs.map Prod.fst).flatten).drop 1 = (bs.map Prod.fst).flatten from rfl,
        ihb]

/-- A clean grid row is inert at top level: it matches no dispatch branch,
so the scan step skips it. -/
theorem stepCommand_cleanRow (cfg : Config) (tokens : List String) (st : ParseState)
    (index : Nat) (hc : index ∉ st.consumed) (h : CleanRow (tokens.getD index "")) :
    stepCommand cfg tokens st index = st := by
  unfold stepCommand
  rw [if_neg hc,
    if_neg (cleanRow_ne _ h "CHANNEL" (by decide)),
    if_neg (fun hcon => (cleanRow_ne _ h "SEND A" (by decide)) hcon.1),
    if_neg (cleanRow_ne _ h "SHOW" (by decide)),
    if_neg (cleanRow_ne _ h "TURN ON" (by decide)),
    if_neg (cleanRow_ne _ h "TURN OFF" (by decide)),
    if_neg (by rw [cleanRow_not_on _ h]; simp),
    if_neg (cleanRow_ne _ h "ON" (by decide)),
    if_neg (cleanRow_ne _ h "IF" (by decide))]

/-- A token carrying a bracket match is inert at top level: it equals no
dispatch keyword and no recognized merged `ON <phrase>` token (none of
those contain a bracket), so the scan step skips it. -/
theorem stepCommand_bracketTok (cfg : Config) (tokens : List String) (st : ParseState)
    (index : Nat) (inner : List Char) (hc : index ∉ st.consumed)
    (h : bracketInner (tokens.getD index "").toList = some inner) :
    stepCommand cfg tokens st index = st := by
  unfold stepCommand
  rw [if_neg hc,
    if_neg (bracket_ne _ inner h "CHANNEL" rfl),
    if_neg (fun hcon => (bracket_ne _ inner h "SEND A" rfl) hcon.1),
    if_neg (bracket_ne _ inner h "SHOW" rfl),
    if_neg (bracket_ne _ inner h "TURN ON" rfl),
    if_neg (bracket_ne _ inner h "TURN OFF" rfl)]
  by_cases h6 : pyStartsWith (tokens.getD index "") "ON " = true
  · rw [if_pos h6]
    dsimp only
    split_ifs with g1 g2 g3 g4 g5 g6 g7 g8
    · exact (bracket_not_merged_on _ inner "TILT LEFT" h h6 g1 rfl).elim
    · exact (bracket_not_merged_on _ inner "TILT RIGHT" h h6 g2 rfl).elim
    · exact (bracket_not_merged_on _ inner "TILT UP" h h6 g3 rfl).elim
    · exact (bracket_not_merged_on _ inner "TILT DOWN" h h6 g4 rfl).elim
    · exact (bracket_not_merged_on _ inner "SHAKE" h h6 g5 rfl).elim
    · exact (bracket_not_merged_on _ inner "RADIO RECEIVES" h h6 g6 rfl).elim
    · exact (bracket_not_merged_on _ inner "HEAR LOUD SOUND" h h6 g7 rfl).elim
    · exact (bracket_not_merged_on _ inner "HEAR QUIET SOUND" h h6 g8 rfl).elim
    · rfl
  · rw [if_neg h6,
      if_neg (bracket_ne _ inner h "ON" rfl),
      if_neg (bracket_ne _ inner h "IF" rfl)]

/-- Scanning one index is one dispatch step. -/
theorem scanFrom_one (cfg : Config) (tokens : List String) (st : ParseState)
    (idx : Nat) : scanFrom cfg tokens st idx 1 = stepCommand cfg tokens st idx := rfl

/-- Dispatching a `SHOW` + clean-grid block at top level appends exactly one
`show_grid` action (and changes nothing else). -/
theorem stepCommand_show_block (cfg : Config) (pre rest : List String)
    (st : ParseState) (r1 r2 r3 r4 r5 : String)
    (hclean : ∀ r ∈ [r1, r2, r3, r4, r5], CleanRow r)
    (hcons : st.consumed = []) :
    stepCommand cfg (pre ++ (["SHOW", r1, r2, r3, r4, r5] ++ rest)) st pre.length
      = { st with actions := st.actions
            ++ [TopAction.show_grid (strJoin "\n" [r1, r2, r3, r4, r5])] } := by
  have hv : (pre ++ (["SHOW", r1, r2, r3, r4, r5] ++ rest)).getD pre.length "" = "SHOW" := by
    rw [show pre.length = pre.length + 0 from by omega, getD_append_shift]
    rfl
  have hsc : parse_show_common cfg (pre ++ (["SHOW", r1, r2, r3, r4, r5] ++ rest))
      pre.length 1 = ShowParse.grid (strJoin "\n" [r1, r2, r3, r4, r5]) 5 := by
    unfold parse_show_common
    rw [List.drop_append 1]
    exact showRel_grid cfg [r1, r2, r3, r4, r5] rest (by simp) hclean
  unfold stepCommand
  rw [hv, if_neg (by rw [hcons]; simp),
    if_neg (by decide), if_neg (fun hcon => by exact absurd hcon.1 (by decide)),
    if_pos rfl, hsc]

/-- Dispatching a `TURN ON` + bracketed-pin block at top level appends
exactly one `turn_on_pin` action. -/
theorem stepCommand_turn_on_block (cfg : Config) (pre rest : List String)
    (st : ParseState) (t : String) (inner : List Char)
    (hb : bracketInner t.toList = some inner)
    (hne : normalize_pin_token cfg (String.mk inner) ≠ "")
    (hpin : (cfg.pins.lookup (normalize_pin_token cfg (String.mk inner))).isSome)
    (hcons : st.consumed = []) :
    stepCommand cfg (pre ++ (["TURN ON", t] ++ rest)) st pre.length
      = { st with actions := st.actions
            ++ [TopAction.turn_on_pin (normalize_pin_token cfg (String.mk inner))] } := by
  have hv : (pre ++ (["TURN ON", t] ++ rest)).getD pre.length "" = "TURN ON" := by
    rw [show pre.length = pre.length + 0 from by omega, getD_append_shift]
    rfl
  have hfb : findBracketPin cfg ((pre ++ (["TURN ON", t] ++ rest)).drop (pre.length + 1)) 5 1
      = some (normalize_pin_token cfg (String.mk inner), 1) := by
    rw [List.drop_append 1]
    show findBracketPin cfg (t :: rest) 5 1 = _
    unfold findBracketPin
    rw [if_neg (by omega), hb]
  unfold stepCommand
  rw [hv, if_neg (by rw [hcons]; simp),
    if_neg (by decide), if_neg (fun hcon => by exact absurd hcon.1 (by decide)),
    if_neg (by decide), if_pos rfl, hfb]
  dsimp only
  rw [if_pos ⟨hne, hpin⟩]

/-- Dispatching a `TURN OFF` + bracketed-pin block at top level appends
exactly one `turn_off_pin` action. -/
theorem stepCommand_turn_off_block (cfg : Config) (pre rest : List String)
    (st : ParseState) (t : String) (inner : List Char)
    (hb : bracketInner t.toList = some inner)
    (hne : normalize_pin_token cfg (String.mk inner) ≠ "")
    (hpin : (cfg.pins.lookup (normalize_pin_token cfg (String.mk inner))).isSome)
    (hcons : st.consumed = []) :
    stepCommand cfg (pre ++ (["TURN OFF", t] ++ rest)) st pre.length
      = { st with actions := st.actions
            ++ [TopAction.turn_off_pin (normalize_pin_token cfg (String.mk inner))] } := by
  have hv : (pre ++ (["TURN OFF", t] ++ rest)).getD pre.length "" = "TURN OFF" := by
    rw [show pre.length = pre.length + 0 from by omega, getD_append_shift]
    rfl
  have hfb : findBracketPin cfg ((pre ++ (["TURN OFF", t] ++ rest)).drop (pre.length + 1)) 5 1
      = some (normalize_pin_token cfg (String.mk inner), 1) := by
    rw [List.drop_append 1]
    show findBracketPin cfg (t :: rest) 5 1 = _
    unfold findBracketPin
    rw [if_neg (by omega), hb]
  unfold stepCommand
  rw [hv, if_neg (by rw [hcons]; simp),
    if_neg (by decide), if_neg (fun hcon => by exact absurd hcon.1 (by decide)),
    if_neg (by decide), if_neg (by decide), if_pos rfl, hfb]
  dsimp only
  rw [if_pos ⟨hne, hpin⟩]

/-- The top-level scan over a concatenation of good blocks appends exactly
the block actions (one per block) and changes nothing else: the dispatch
step of each block appends its action, and the remaining block tokens
(clean grid rows, bracket-carrying pin tokens) are inert. -/
theorem scan_blocks (cfg : Config) :
    ∀ (blocks : List (List String × TopAction)) (pre : List String) (st : ParseState),
    (∀ p ∈ blocks, GoodBlock cfg p.1 p.2) → st.consumed = [] →
    scanFrom cfg (pre ++ (blocks.map Prod.fst).flatten) st pre.length
        ((blocks.map Prod.fst).flatten).length
      = { st with actions := st.actions ++ blocks.map Prod.snd } := by
  intro blocks
  induction blocks with
  | nil =>
    intro pre st _ _
    show st = _
    simp
  | cons b bs ih =>
    intro pre st h hcons
    obtain ⟨B, a⟩ := b
    have hgb := h (B, a) (by simp)
    have hbs : ∀ p ∈ bs, GoodBlock cfg p.1 p.2 := fun p hp => h p (by simp [hp])
    cases hgb with
    | showGrid r1 r2 r3 r4 r5 h1 h2 h3 h4 h5 =>
      have hclean : ∀ r ∈ [r1, r2, r3, r4, r5], CleanRow r := by
        intro r hr
        simp only [List.mem_cons, List.not_mem_nil, or_false] at hr
        rcases hr with he | he | he | he | he <;> subst he <;> assumption
      rw [show ((["SHOW", r1, r2, r3, r4, r5], TopAction.show_grid
            (strJoin "\n" [r1, r2, r3, r4, r5])) :: bs).map Prod.fst
          = ["SHOW", r1, r2, r3, r4, r5] :: bs.map Prod.fst from rfl,
        show (["SHOW", r1, r2, r3, r4, r5] :: bs.map Prod.fst).flatten
          = ["SHOW", r1, r2, r3, r4, r5] ++ (bs.map Prod.fst).flatten from rfl]
      have hlen : (["SHOW", r1, r2, r3, r4, r5] ++ (bs.map Prod.fst).flatten).length
          = 1 + (1 + (1 + (1 + (1 + (1 + ((bs.map Prod.fst).flatten).length))))) := by
        simp [List.length_append]
        omega
      rw [hlen]
      set T := pre ++ (["SHOW", r1, r2, r3, r4, r5] ++ (bs.map Prod.fst).flatten) with hT
      have hst1 : stepCommand cfg T st pre.length
          = { st with actions := st.actions
              ++ [TopAction.show_grid (strJoin "\n" [r1, r2, r3, r4, r5])] } :=
        stepCommand_show_block cfg pre _ st r1 r2 r3 r4 r5 hclean hcons
      set st1 : ParseState := { st with actions := st.actions
          ++ [TopAction.show_grid (strJoin "\n" [r1, r2, r3, r4, r5])] } with hst1def
      have hcons1 : st1.consumed = [] := hcons
      have hrow : ∀ (k : Nat), 1 ≤ k → k ≤ 5 →
          CleanRow (T.getD (pre.length + k) "") := by
        intro k hk1 hk5
        rw [hT, getD_append_shift]
        interval_cases k
        · exact h1
        · exact h2
        · exact h3
        · exact h4
        · exact h5
      have hs1 : stepCommand cfg T st1 (pre.length + 1) = st1 :=
        stepCommand_cleanRow cfg T st1 _ (by rw [hcons1]; simp) (hrow 1 (by omega) (by omega))
      have hs2 : stepCommand cfg T st1 (pre.length + 1 + 1) = st1 :=
        stepCommand_cleanRow cfg T st1 _ (by rw [hcons1]; simp) (by
          rw [show pre.length + 1 + 1 = pre.length + 2 from by omega]
          exact hrow 2 (by omega) (by omega))
      have hs3 : stepCommand cfg T st1 (pre.length + 1 + 1 + 1) = st1 :=
        stepCommand_cleanRow cfg T st1 _ (by rw [hcons1]; simp) (by
          rw [show pre.length + 1 + 1 + 1 = pre.length + 3 from by omega]
          exact hrow 3 (by omega) (by omega))
      have hs4 : stepCommand cfg T st1 (pre.length + 1 + 1 + 1 + 1) = st1 :=
        stepCommand_cleanRow cfg T st1 _ (by rw [hcons1]; simp) (by
          rw [show pre.length + 1 + 1 + 1 + 1 = pre.length + 4 from by omega]
          exact hrow 4 (by omega) (by omega))
      have hs5 : stepCommand cfg T st1 (pre.length + 1 + 1 + 1 + 1 + 1) = st1 :=
        stepCommand_cleanRow cfg T st1 _ (by rw [hcons1]; simp) (by
          rw [show pre.length + 1 + 1 + 1 + 1 + 1 = pre.length + 5 from by omega]
          exact hrow 5 (by omega) (by omega))
      rw [scanFrom_add cfg T 1, scanFrom_one, hst1,
        scanFrom_add cfg T 1, scanFrom_one, hs1,
        scanFrom_add cfg T 1, scanFrom_one, hs2,
        scanFrom_add cfg T 1, scanFrom_one, hs3,
        scanFrom_add cfg T 1, scanFrom_one, hs4,
        scanFrom_add cfg T 1, scanFrom_one, hs5]
      have hTassoc : T = (pre ++ ["SHOW", r1, r2, r3, r4, r5]) ++ (bs.map Prod.fst).flatten := by
        rw [hT, List.append_assoc]
      have hidx : pre.length + 1 + 1 + 1 + 1 + 1 + 1
          = (pre ++ ["SHOW", r1, r2, r3, r4, r5]).length := by
        simp [List.length_append]
      rw [hTassoc, hidx, ih (pre ++ ["SHOW", r1, r2, r3, r4, r5]) st1 hbs hcons1]
      show ({ st1 with actions := st1.actions ++ bs.map Prod.snd } : ParseState) = _
      rw [hst1def]
      simp [List.append_assoc]
    | turnOn t inner hbk hne hpin =>
      rw [show ((["TURN ON", t], TopAction.turn_on_pin
            (normalize_pin_token cfg (String.mk inner))) :: bs).map Prod.fst
          = ["TURN ON", t] :: bs.map Prod.fst from rfl,
        show (["TURN ON", t] :: bs.map Prod.fst).flatten
          = ["TURN ON", t] ++ (bs.map Prod.fst).flatten from rfl]
      have hlen : (["TURN ON", t] ++ (bs.map Prod.fst).flatten).length
          = 1 + (1 + ((bs.map Prod.fst).flatten).length) := by
        simp [List.length_append]
        omega
      rw [hlen]
      set T := pre ++ (["TURN ON", t] ++ (bs.map Prod.fst).flatten) with hT
      have hst1 : stepCommand cfg T st pre.length
          = { st with actions := st.actions
              ++ [TopAction.turn_on_pin (normalize_pin_token cfg (String.mk inner))] } :=
        stepCommand_turn_on_block cfg pre _ st t inner hbk hne hpin hcons
      set st1 : ParseState := { st with actions := st.actions
          ++ [TopAction.turn_on_pin (normalize_pin_token cfg (String.mk inner))] } with hst1def
      have hcons1 : st1.consumed = [] := hcons
      have hs1 : stepCommand cfg T st1 (pre.length + 1) = st1 :=
        stepCommand_bracketTok cfg T st1 _ inner (by rw [hcons1]; simp) (by
          rw [hT, getD_append_shift]
          exact hbk)
      rw [scanFrom_add cfg T 1, scanFrom_one, hst1,
        scanFrom_add cfg T 1, scanFrom_one, hs1]
      have hTassoc : T = (pre ++ ["TURN ON", t]) ++ (bs.map Prod.fst).flatten := by
        rw [hT, List.append_assoc]
      have hidx : pre.length + 1 + 1 = (pre ++ ["TURN ON", t]).length := by
        simp [List.length_append]
      rw [hTassoc, hidx, ih (pre ++ ["TURN ON", t]) st1 hbs hcons1]
      show ({ st1 with actions := st1.actions ++ bs.map Prod.snd } : ParseState) = _
      rw [hst1def]
      simp [List.append_assoc]
    | turnOff t inner hbk hne hpin =>
      rw [show ((["TURN OFF", t], TopAction.turn_off_pin
            (normalize_pin_token cfg (String.mk inner))) :: bs).map Prod.fst
          = ["TURN OFF", t] :: bs.map Prod.fst from rfl,
        show (["TURN OFF", t] :: bs.map Prod.fst).flatten
          = ["TURN OFF", t] ++ (bs.map Prod.fst).flatten from rfl]
      have hlen : (["TURN OFF", t] ++ (bs.map Prod.fst).flatten).length
          = 1 + (1 + ((bs.map Prod.fst).flatten).length) := by
        simp [List.length_append]
        omega
      rw [hlen]
      set T := pre ++ (["TURN OFF", t] ++ (bs.map Prod.fst).flatten) with hT
      have hst1 : stepCommand cfg T st pre.length
          = { st with actions := st.actions
              ++ [TopAction.turn_off_pin (normalize_pin_token cfg (String.mk inner))] } :=
        stepCommand_turn_off_block cfg pre _ st t inner hbk hne hpin hcons
      set st1 : ParseState := { st with actions := st.actions
          ++ [TopAction.turn_off_pin (normalize_pin_token cfg (String.mk inner))] } with hst1def
      have hcons1 : st1.consumed = [] := hcons
      have hs1 : stepCommand cfg T st1 (pre.length + 1) = st1 :=
        stepCommand_bracketTok cfg T st1 _ inner (by rw [hcons1]; simp) (by
          rw [hT, getD_append_shift]
          exact hbk)
      rw [scanFrom_add cfg T 1, scanFrom_one, hst1,
        scanFrom_add cfg T 1, scanFrom_one, hs1]
      have hTassoc : T = (pre ++ ["TURN OFF", t]) ++ (bs.map Prod.fst).flatten := by
        rw [hT, List.append_assoc]
      have hidx : pre.length + 1 + 1 = (pre ++ ["TURN OFF", t]).length := by
        simp [List.length_append]
      rw [hTassoc, hidx, ih (pre ++ ["TURN OFF", t]) st1 hbs hcons1]
      show ({ st1 with actions := st1.actions ++ bs.map Prod.snd } : ParseState) = _
      rw [hst1def]
      simp [List.append_assoc]

/-- Claim C5 (counterexample): the top-level scan and the action sequence
parser are NOT the same primitive on every action form.  `PLAY SOUND` has
no top-level dispatch branch, so `parse_commands` on
`["PLAY SOUND", "HAPPY"]` emits no action at all, while
`parse_actions_from` on the same tokens parses the sound action and
renders its line. -/
theorem claim_C5_counterexample :
    (parseCommandsTokens cfg1 ["PLAY SOUND", "HAPPY"]).actions = []
    ∧ (parse_actions_from cfg1 ["PLAY SOUND", "HAPPY"] 0 0).1
      = ["music.play(music.builtinPlayableSoundEffect(soundExpression.happy), music.PlaybackMode.UntilDone)"] := by
  decide

/-- Claim C5 (amended): for a run of well-formed `SHOW`-grid and
`TURN ON` / `TURN OFF` bracketed-pin blocks outside any event or
conditional body, the top-level scan of `parse_commands` recognizes
exactly the blocks' actions, and rendering those actions as
`generate_code` does yields exactly the lines `parse_actions_from`
produces for the same tokens.  (This equivalence does not extend to
`PLAY SOUND`, single-token `SEND A MESSAGE`, or `SHOW`-icon, whose
top-level and body treatments differ.) -/
theorem claim_C5_amended (cfg : Config) (blocks : List (List String × TopAction))
    (h : ∀ p ∈ blocks, GoodBlock cfg p.1 p.2) :
    (parseCommandsTokens cfg ((blocks.map Prod.fst).flatten)).actions
      = blocks.map Prod.snd
    ∧ ((parseCommandsTokens cfg ((blocks.map Prod.fst).flatten)).actions).map
        (generateAction cfg)
      = (parse_actions_from cfg ((blocks.map Prod.fst).flatten) 0 0).1 := by
  have h1 := scan_blocks cfg blocks [] initState h rfl
  simp only [List.nil_append, List.length_nil] at h1
  have hacts : (parseCommandsTokens cfg ((blocks.map Prod.fst).flatten)).actions
      = blocks.map Prod.snd := by
    show (scanFrom cfg ((blocks.map Prod.fst).flatten) initState 0
        ((blocks.map Prod.fst).flatten).length).actions = _
    rw [h1]
    show initState.actions ++ blocks.map Prod.snd = _
    simp [initState]
  refine ⟨hacts, ?_⟩
  rw [hacts]
  exact (paRel_blocks cfg blocks h).symm

/-- Claim C5 witness: a concrete run of one clean `SHOW` grid block and one
`TURN ON LED[P0]` block, parsed identically (up to rendering) at top level
and by the action sequence parser. -/
theorem claim_C5_witness :
    (parseCommandsTokens cfg1
        ["SHOW", "#.#.#", ".....", "#.#.#", ".....", "#.#.#", "TURN ON", "LED[P0]"]).actions
      = [TopAction.show_grid "#.#.#\n.....\n#.#.#\n.....\n#.#.#", TopAction.turn_on_pin "P0"]
    ∧ ((parseCommandsTokens cfg1
        ["SHOW", "#.#.#", ".....", "#.#.#", ".....", "#.#.#", "TURN ON", "LED[P0]"]).actions).map
        (generateAction cfg1)
      = (parse_actions_from cfg1
          ["SHOW", "#.#.#", ".....", "#.#.#", ".....", "#.#.#", "TURN ON", "LED[P0]"] 0 0).1 := by
  have h := claim_C5_amended cfg1
    [(["SHOW", "#.#.#", ".....", "#.#.#", ".....", "#.#.#"],
        TopAction.show_grid (strJoin "\n" ["#.#.#", ".....", "#.#.#", ".....", "#.#.#"])),
     (["TURN ON", "LED[P0]"],
        TopAction.turn_on_pin (normalize_pin_token cfg1 (String.mk ['P', '0'])))]
    (by
      intro p hp
      simp only [List.mem_cons, List.not_mem_nil, or_false] at hp
      rcases hp with he | he
      · subst he
        exact GoodBlock.showGrid _ _ _ _ _
          (by unfold CleanRow; decide) (by unfold CleanRow; decide)
          (by unfold CleanRow; decide) (by unfold CleanRow; decide)
          (by unfold CleanRow; decide)
      · subst he
        exact GoodBlock.turnOn "LED[P0]" ['P', '0'] (by decide) (by decide) (by decide))
  exact ⟨h.1.trans (by decide), h.2⟩
